import Mathlib

/-!
# jenkins-library: XSUAA token acquisition and Protecode result deletion

Shallow embedding of `pkg/xsuaa/xsuaa.go` (`GetBearerToken`, `SetBearerToken`,
`readResponseBody`) and of `pkg/protecode/api.go` (`deleteResult`, `send`).

Go values are embedded as follows.
* `error` is `Option Err`, `none` being `nil`.
* `[]byte` / `string` bodies are `String` (well-formed text).
* Pointer receivers become explicit state passing: every method takes the
  receiver and the `World` (what the code does to its collaborators) and
  returns the new receiver and the new `World`.
* The standard library calls `url.Parse` and the network behind
  `piperhttp.Client` are parameters collected in `Env`.
* `json.Unmarshal` is embedded as an executable reader for the `AuthToken`
  struct, following `encoding/json`.
-/

/-! ## github.com/pkg/errors -/

/-- Error values built with `github.com/pkg/errors`. -/
inductive Err where
  /-- Result of `errors.Errorf` / `errors.New`, or an error of a collaborator, with its message. -/
  | errorf (msg : String)
  /-- Result of `errors.Wrapf(cause, msg)` / `errors.Wrap(cause, msg)` for a non-nil cause. -/
  | wrap (cause : Err) (msg : String)
deriving DecidableEq, Repr

namespace Err

/-- Message of an error (Go method `Error()`): a wrapped error prints as `msg: cause`. -/
def Error : Err → String
  | errorf msg => msg
  | wrap cause msg => msg ++ ": " ++ cause.Error

/-- Cause of an error (`errors.Cause`): the innermost wrapped error. -/
def Cause : Err → Err
  | errorf msg => errorf msg
  | wrap cause _ => cause.Cause

end Err

/-- Embedding of `errors.Wrapf(err, msg)`: nil stays nil. -/
def Wrapf (err : Option Err) (msg : String) : Option Err :=
  match err with
  | none => none
  | some e => some (Err.wrap e msg)

/-! ## encoding/json, as far as `json.Unmarshal(data, &AuthToken)` goes -/

/-- AuthToken provides a structure for the XSUAA auth token to be marshalled into. -/
structure AuthToken where
  /-- Field with tag `json:"token_type"`. -/
  TokenType : String
  /-- Field with tag `json:"access_token"`. -/
  AccessToken : String
  /-- Field with tag `json:"expires_in"`. -/
  ExpiresIn : Int
deriving DecidableEq, Repr

namespace Json

/-- JSON document as the decoder sees it; a number keeps its literal text. -/
inductive Value where
  | null
  | bool (b : Bool)
  | number (lit : String)
  | string (s : String)
  | array (elems : List Value)
  | object (members : List (String × Value))

/-- Nesting limit of the scanner (`maxNestingDepth`). -/
def maxNestingDepth : Nat := 10000

/-- Whitespace of the scanner: space, tab, carriage return, line feed. -/
def isSpace (c : Char) : Bool :=
  c.toNat == 0x20 || c.toNat == 0x09 || c.toNat == 0x0d || c.toNat == 0x0a

/-- Drop leading whitespace. -/
def skipSpace : List Char → List Char
  | [] => []
  | c :: cs => if isSpace c then skipSpace cs else c :: cs

/-- Decimal digit test. -/
def isDigit (c : Char) : Bool :=
  decide (0x30 ≤ c.toNat) && decide (c.toNat ≤ 0x39)

/-- Value of a hexadecimal digit. -/
def hexDigit (c : Char) : Option Nat :=
  let n := c.toNat
  if 0x30 ≤ n ∧ n ≤ 0x39 then some (n - 0x30)
  else if 0x61 ≤ n ∧ n ≤ 0x66 then some (n - 0x61 + 10)
  else if 0x41 ≤ n ∧ n ≤ 0x46 then some (n - 0x41 + 10)
  else none

/-- Four hexadecimal digits at the head of the input (the digits of a `\u` escape). -/
def hex4 : List Char → Option (Nat × List Char)
  | a :: b :: c :: d :: rest =>
    match hexDigit a, hexDigit b, hexDigit c, hexDigit d with
    | some x, some y, some z, some w => some (((x * 16 + y) * 16 + z) * 16 + w, rest)
    | _, _, _, _ => none
  | _ => none

/-- Embedding of `getu4`: a complete `\uXXXX` escape at the head of the input. -/
def getu4 : List Char → Option (Nat × List Char)
  | b :: u :: rest =>
    if b.toNat = 0x5c ∧ u.toNat = 0x75 then hex4 rest else none
  | _ => none

/-- Replacement rune U+FFFD. -/
def replacementChar : Char := Char.ofNat 0xfffd

/-- Scan a string literal after its opening quote and unquote it: the scanner
rejects control characters and unknown escapes, `unquote` decodes the
escapes, joining UTF-16 surrogate pairs and replacing a lone surrogate by
U+FFFD. `acc` holds the decoded runes in reverse. -/
def scanString : Nat → List Char → List Char → Option (String × List Char)
  | 0, _, _ => none
  | _ + 1, [], _ => none
  | fuel + 1, c :: r, acc =>
    if c.toNat = 0x22 then some (String.mk acc.reverse, r)
    else if c.toNat = 0x5c then
      match r with
      | [] => none
      | e :: r1 =>
        if e.toNat = 0x22 ∨ e.toNat = 0x5c ∨ e.toNat = 0x2f then scanString fuel r1 (e :: acc)
        else if e.toNat = 0x62 then scanString fuel r1 (Char.ofNat 0x08 :: acc)
        else if e.toNat = 0x66 then scanString fuel r1 (Char.ofNat 0x0c :: acc)
        else if e.toNat = 0x6e then scanString fuel r1 (Char.ofNat 0x0a :: acc)
        else if e.toNat = 0x72 then scanString fuel r1 (Char.ofNat 0x0d :: acc)
        else if e.toNat = 0x74 then scanString fuel r1 (Char.ofNat 0x09 :: acc)
        else if e.toNat = 0x75 then
          match hex4 r1 with
          | none => none
          | some (rr, r2) =>
            if 0xd800 ≤ rr ∧ rr < 0xe000 then
              match getu4 r2 with
              | some (rr1, r3) =>
                if rr < 0xdc00 ∧ 0xdc00 ≤ rr1 ∧ rr1 < 0xe000 then
                  scanString fuel r3
                    (Char.ofNat ((rr - 0xd800) * 0x400 + (rr1 - 0xdc00) + 0x10000) :: acc)
                else scanString fuel r2 (replacementChar :: acc)
              | none => scanString fuel r2 (replacementChar :: acc)
            else scanString fuel r2 (Char.ofNat rr :: acc)
        else none
    else if c.toNat < 0x20 then none
    else scanString fuel r (c :: acc)

/-- Exponent part of a number, if any (scanner states `stateE`, `stateESign`, `stateE0`). -/
def scanExp (lit rest : List Char) : Option (List Char × List Char) :=
  match rest with
  | [] => some (lit, [])
  | e :: r =>
    if e.toNat = 0x65 ∨ e.toNat = 0x45 then
      let signed : List Char × List Char :=
        match r with
        | s :: r1 => if s.toNat = 0x2b ∨ s.toNat = 0x2d then ([s], r1) else ([], r)
        | [] => ([], [])
      let ds := signed.2.span isDigit
      if ds.1.isEmpty then none else some (lit ++ e :: signed.1 ++ ds.1, ds.2)
    else some (lit, rest)

/-- Fraction part of a number, if any (scanner states `stateDot`, `stateDot0`). -/
def scanFrac (lit rest : List Char) : Option (List Char × List Char) :=
  match rest with
  | [] => some (lit, [])
  | d :: r =>
    if d.toNat = 0x2e then
      let ds := r.span isDigit
      if ds.1.isEmpty then none else scanExp (lit ++ d :: ds.1) ds.2
    else scanExp lit rest

/-- Number literal at the head of the input (scanner states `stateNeg`, `state0`, `state1`). -/
def scanNumber (cs : List Char) : Option (List Char × List Char) :=
  let signed : List Char × List Char :=
    match cs with
    | c :: r => if c.toNat = 0x2d then ([c], r) else ([], cs)
    | [] => ([], [])
  match signed.2 with
  | [] => none
  | d :: r =>
    if d.toNat = 0x30 then scanFrac (signed.1 ++ [d]) r
    else if 0x31 ≤ d.toNat ∧ d.toNat ≤ 0x39 then
      let ds := r.span isDigit
      scanFrac (signed.1 ++ d :: ds.1) ds.2
    else none

/-- Strip a fixed word from the head of the input (literals `true`, `false`, `null`). -/
def stripWord (word : String) (cs : List Char) : Option (List Char) :=
  if word.toList.isPrefixOf cs then some (cs.drop word.length) else none

mutual
/-- One JSON value at the head of the input (no leading whitespace). `depth`
counts the containers that are open. -/
def parseValue : Nat → Nat → List Char → Option (Value × List Char)
  | 0, _, _ => none
  | _ + 1, _, [] => none
  | fuel + 1, depth, c :: r =>
    if c.toNat = 0x7b then
      if maxNestingDepth ≤ depth then none
      else
        match skipSpace r with
        | [] => none
        | d :: r1 =>
          if d.toNat = 0x7d then some (Value.object [], r1)
          else
            match parseMembers fuel (depth + 1) (d :: r1) with
            | some (ms, rest) => some (Value.object ms, rest)
            | none => none
    else if c.toNat = 0x5b then
      if maxNestingDepth ≤ depth then none
      else
        match skipSpace r with
        | [] => none
        | d :: r1 =>
          if d.toNat = 0x5d then some (Value.array [], r1)
          else
            match parseElems fuel (depth + 1) (d :: r1) with
            | some (xs, rest) => some (Value.array xs, rest)
            | none => none
    else if c.toNat = 0x22 then
      match scanString (r.length + 1) r [] with
      | some (s, rest) => some (Value.string s, rest)
      | none => none
    else if c.toNat = 0x2d ∨ isDigit c = true then
      match scanNumber (c :: r) with
      | some (lit, rest) => some (Value.number (String.mk lit), rest)
      | none => none
    else if c.toNat = 0x74 then
      match stripWord "true" (c :: r) with
      | some rest => some (Value.bool true, rest)
      | none => none
    else if c.toNat = 0x66 then
      match stripWord "false" (c :: r) with
      | some rest => some (Value.bool false, rest)
      | none => none
    else if c.toNat = 0x6e then
      match stripWord "null" (c :: r) with
      | some rest => some (Value.null, rest)
      | none => none
    else none
/-- Members of an object, from the opening quote of a key up to and including the closing brace. -/
def parseMembers : Nat → Nat → List Char → Option (List (String × Value) × List Char)
  | 0, _, _ => none
  | _ + 1, _, [] => none
  | fuel + 1, depth, q :: r =>
    if q.toNat = 0x22 then
      match scanString (r.length + 1) r [] with
      | none => none
      | some (key, r1) =>
        match skipSpace r1 with
        | [] => none
        | colon :: r2 =>
          if colon.toNat = 0x3a then
            match parseValue fuel depth (skipSpace r2) with
            | none => none
            | some (v, r3) =>
              match skipSpace r3 with
              | [] => none
              | d :: r4 =>
                if d.toNat = 0x2c then
                  match parseMembers fuel depth (skipSpace r4) with
                  | some (ms, rest) => some ((key, v) :: ms, rest)
                  | none => none
                else if d.toNat = 0x7d then some ([(key, v)], r4)
                else none
          else none
    else none
/-- Elements of an array, from the first element up to and including the closing bracket. -/
def parseElems : Nat → Nat → List Char → Option (List Value × List Char)
  | 0, _, _ => none
  | fuel + 1, depth, cs =>
    match parseValue fuel depth cs with
    | none => none
    | some (v, r1) =>
      match skipSpace r1 with
      | [] => none
      | d :: r2 =>
        if d.toNat = 0x2c then
          match parseElems fuel depth (skipSpace r2) with
          | some (xs, rest) => some (v :: xs, rest)
          | none => none
        else if d.toNat = 0x5d then some ([v], r2)
        else none
end

/-- Embedding of `checkValid` together with the reading of the document: the
whole input must be one JSON value surrounded by optional whitespace. `none`
is a syntax error. The fuel is more than the reader can use (`parse_fuel`). -/
def parse (data : String) : Option Value :=
  let cs := skipSpace data.toList
  match parseValue (2 * cs.length + 2) 0 cs with
  | some (v, rest) => if (skipSpace rest).isEmpty then some v else none
  | none => none

end Json

namespace Json

/-- Fields of `AuthToken`, in declaration order. -/
inductive Field where
  | TokenType
  | AccessToken
  | ExpiresIn
deriving DecidableEq, Repr

/-- Name of a field in JSON, from its struct tag. -/
def Field.tag : Field → String
  | Field.TokenType => "token_type"
  | Field.AccessToken => "access_token"
  | Field.ExpiresIn => "expires_in"

/-- Go type of a field, as printed in an `UnmarshalTypeError`. -/
def Field.goType : Field → String
  | Field.TokenType => "string"
  | Field.AccessToken => "string"
  | Field.ExpiresIn => "int"

/-- Fields of the struct in the order the decoder tries them. -/
def fields : List Field := [Field.TokenType, Field.AccessToken, Field.ExpiresIn]

/-- Case folding of one rune of a key when it is compared with a tag made of
lower-case ASCII letters and underscores: ASCII upper case folds to lower
case, the Kelvin sign U+212A to k and the long s U+017F to s. -/
def foldRune (c : Char) : Char :=
  if 0x41 ≤ c.toNat ∧ c.toNat ≤ 0x5a then Char.ofNat (c.toNat + 0x20)
  else if c.toNat = 0x212a then Char.ofNat 0x6b
  else if c.toNat = 0x17f then Char.ofNat 0x73
  else c

/-- Case-insensitive match of an object key with a field tag (`equalFoldRight`
of `encoding/json`, the fold function chosen for tags that contain k or s, as
all three tags do). -/
def equalFold (tag key : String) : Bool :=
  key.toList.map foldRune == tag.toList

/-- Field an object key is stored into: an exact match of the tag is preferred,
otherwise the first field whose tag matches case-insensitively. -/
def findField (key : String) : Option Field :=
  match fields.find? (fun f => f.tag == key) with
  | some f => some f
  | none => fields.find? (fun f => equalFold f.tag key)

/-- Error of `checkValid` (`*json.SyntaxError`). Its text depends on the
offending byte and is not reproduced. -/
def syntaxError : Err := Err.errorf "json: syntax error"

/-- The `*json.UnmarshalTypeError` for a value that does not fit a struct field. -/
def fieldTypeError (value : String) (f : Field) : Err :=
  Err.errorf ("json: cannot unmarshal " ++ value ++ " into Go struct field AuthToken."
    ++ f.tag ++ " of type " ++ f.goType)

/-- The `*json.UnmarshalTypeError` for a document that is not an object. -/
def valueTypeError (value : String) : Err :=
  Err.errorf ("json: cannot unmarshal " ++ value ++ " into Go value of type xsuaa.AuthToken")

/-- Kind of a JSON value as named in an `UnmarshalTypeError`. -/
def Value.kind : Value → String
  | Value.null => "null"
  | Value.bool _ => "bool"
  | Value.number _ => "number"
  | Value.string _ => "string"
  | Value.array _ => "array"
  | Value.object _ => "object"

/-- Embedding of `strconv.ParseInt(lit, 10, 64)` on a JSON number literal: an
optional minus sign and digits only, within the range of a 64-bit int. -/
def parseInt64 (lit : String) : Option Int :=
  let cs := lit.toList
  let neg : Bool := match cs with
    | c :: _ => c.toNat == 0x2d
    | [] => false
  let ds := if neg then cs.drop 1 else cs
  if ds.isEmpty then none
  else if ds.all isDigit then
    let n : Nat := ds.foldl (fun acc d => acc * 10 + (d.toNat - 0x30)) 0
    if neg then (if n ≤ 2 ^ 63 then some (-(n : Int)) else none)
    else (if n < 2 ^ 63 then some (n : Int) else none)
  else none

/-- Store one JSON value into a field (`d.value` on the field): `null` leaves
the field as it is, a value of the wrong kind leaves it as it is and reports
an `UnmarshalTypeError`. -/
def setField (tok : AuthToken) (f : Field) (v : Value) : AuthToken × Option Err :=
  match f, v with
  | _, Value.null => (tok, none)
  | Field.TokenType, Value.string s => ({ tok with TokenType := s }, none)
  | Field.AccessToken, Value.string s => ({ tok with AccessToken := s }, none)
  | Field.ExpiresIn, Value.number lit =>
    match parseInt64 lit with
    | some n => ({ tok with ExpiresIn := n }, none)
    | none => (tok, some (fieldTypeError ("number " ++ lit) f))
  | f, v => (tok, some (fieldTypeError v.kind f))

/-- Decode the members of an object into the struct, in document order
(`d.object`): keys that match no field are skipped, a repeated key is stored
again, and only the first error is kept (`d.saveError`). -/
def decodeMembers : List (String × Value) → AuthToken → Option Err → AuthToken × Option Err
  | [], tok, saved => (tok, saved)
  | (key, v) :: ms, tok, saved =>
    match findField key with
    | none => decodeMembers ms tok saved
    | some f =>
      let r := setField tok f v
      decodeMembers ms r.1 (if saved.isSome then saved else r.2)

/-- Embedding of `json.Unmarshal(data, &tok)` for `tok : AuthToken`: a syntax
error leaves the struct untouched; `null` is a no-op; an object is decoded
member by member into the struct it is given, so fields that the document
does not mention keep their values; any other document is a type error. -/
def Unmarshal (data : String) (tok : AuthToken) : AuthToken × Option Err :=
  match parse data with
  | none => (tok, some syntaxError)
  | some Value.null => (tok, none)
  | some (Value.object ms) => decodeMembers ms tok none
  | some v => (tok, some (valueTypeError v.kind))

end Json

/-! ## Collaborators: net/url, net/http, piperhttp.Client, log -/

/-- Result of `url.Parse` (`url.URL`). -/
structure URL where
  Scheme : String
  Host : String
  Path : String
  RawQuery : String
  Fragment : String
deriving DecidableEq, Repr

/-- Request headers (`http.Header`, `map[string][]string`): names in canonical
form, each with its values. -/
abbrev Header := List (String × List String)

/-- Embedding of `Header.Add`. -/
def Header.Add : Header → String → String → Header
  | [], key, value => [(key, [value])]
  | (k, vs) :: rest, key, value =>
    if k = key then (k, vs ++ [value]) :: rest else (k, vs) :: Header.Add rest key value

/-- Values a header carries under a name (`Header.Values`). -/
def Header.Values (h : Header) (key : String) : List String :=
  match h.find? (fun kv => kv.1 == key) with
  | some kv => kv.2
  | none => []

/-- Options of the HTTP client (`piperhttp.ClientOptions`): the fields that
`GetBearerToken` and `SetBearerToken` set. A struct literal leaves the fields
it does not name at their zero value, the empty string. -/
structure ClientOptions where
  Username : String
  Password : String
  Token : String
deriving DecidableEq, Repr

/-- Modelled from the spec: `piperhttp.Client` (pkg/http) is not among the
sources. The client holds its persistent request options; `SetOptions`
replaces them. -/
structure Client where
  options : ClientOptions
deriving DecidableEq, Repr

/-- Modelled from the spec: `piperhttp.Client.SetOptions` (pkg/http) is not
among the sources; it stores the given options in place of the earlier ones. -/
def Client.SetOptions (_c : Client) (options : ClientOptions) : Client :=
  { options := options }

/-- Body of a response as `ioutil.ReadAll` finds it. -/
inductive Body where
  /-- Reading delivers the whole text. -/
  | text (t : String)
  /-- Reading fails with an error. -/
  | broken (readErr : Err)
deriving DecidableEq, Repr

/-- Response of the server (`http.Response`); `Body` may be a nil reader. -/
structure Response where
  StatusCode : Int
  Body : Option Body
deriving DecidableEq, Repr

/-- One call of `Client.SendRequest(method, url, body, header, cookies)`
together with the client options in force when it was made. -/
structure Sent where
  options : ClientOptions
  method : String
  url : String
  body : Option String
  header : Header
  cookies : Option (List String)
deriving DecidableEq, Repr

/-- Modelled from the spec: the request building of `piperhttp.Client`
(pkg/http) is not among the sources. A request goes out with the headers of
the caller and, when the Token option is set, with the header
`Authorization: <Token>`. -/
def Sent.wireHeader (s : Sent) : Header :=
  if s.options.Token = "" then s.header else Header.Add s.header "Authorization" s.options.Token

/-- Modelled from the spec: the `log` package (pkg/log) is not among the
sources. An error can be tagged with a category, so that callers can classify
it as a problem of service availability; these are the categories that matter
here. -/
inductive ErrorCategory where
  | ErrorUndefined
  | ErrorService
deriving DecidableEq, Repr

/-- What the code does to its collaborators. -/
structure World where
  /-- Calls of `SendRequest` so far, oldest first. -/
  sent : List Sent
  /-- Number of response bodies read with `ioutil.ReadAll`. -/
  bodiesRead : Nat
  /-- Number of response bodies closed. -/
  bodiesClosed : Nat
  /-- Error category set in the `log` package. -/
  errorCategory : ErrorCategory
deriving DecidableEq, Repr

/-- What the code cannot decide itself: the library function `url.Parse` and
the answers that come back through the HTTP client. -/
structure Env where
  /-- The function `url.Parse`. -/
  urlParse : String → Except Err URL
  /-- Reply of `SendRequest` (response and error, either may be nil) to the
  last of the calls made so far. -/
  roundTrip : List Sent → Option Response × Option Err

/-- Modelled from the spec: `log.SetErrorCategory` (pkg/log) is not among the
sources; it records the category. -/
def SetErrorCategory (w : World) (c : ErrorCategory) : World :=
  { w with errorCategory := c }

/-- Modelled from the spec: `piperhttp.Client.SendRequest` (pkg/http) is not
among the sources. One call issues one request and returns the reply. -/
def Client.SendRequest (env : Env) (c : Client) (w : World) (method url : String)
    (body : Option String) (header : Header) (cookies : Option (List String)) :
    World × Option Response × Option Err :=
  let s : Sent :=
    { options := c.options, method := method, url := url, body := body,
      header := header, cookies := cookies }
  let w1 : World := { w with sent := w.sent ++ [s] }
  (w1, env.roundTrip w1.sent)

/-- How a Go call ends: it returns, or it panics (nil dereference). -/
inductive Result (α : Type) where
  | ret (a : α)
  | panic
deriving DecidableEq, Repr

/-! ## pkg/xsuaa/xsuaa.go -/

/-- The XSUAA client: the HTTP client and the token of the last acquisition. -/
structure XSUAA where
  client : Client
  AuthToken : AuthToken
deriving DecidableEq, Repr

/-- State after a method of `XSUAA` has run: the receiver, the world, and the
error it returned (unless it panicked). -/
structure After where
  x : XSUAA
  w : World
  err : Result (Option Err)
deriving DecidableEq, Repr

/-- Embedding of `readResponseBody`: a nil response is an error; otherwise the
body is read in full and closed. Returns the body text and the error. -/
def readResponseBody (w : World) (response : Option Response) :
    World × Result (String × Option Err) :=
  match response with
  | none => (w, Result.ret ("", some (Err.errorf "did not retrieve an HTTP response")))
  | some r =>
    match r.Body with
    | none => (w, Result.panic)
    | some b =>
      let w1 : World :=
        { w with bodiesRead := w.bodiesRead + 1, bodiesClosed := w.bodiesClosed + 1 }
      match b with
      | Body.broken readErr =>
        (w1, Result.ret ("", some (Err.wrap readErr "HTTP response body could not be read")))
      | Body.text bodyText => (w1, Result.ret (bodyText, none))

/-- The constant `urlPathAndQuery` of `GetBearerToken`. -/
def urlPathAndQuery : String := "oauth/token?grant_type=client_credentials&response_type=token"

/-- Embedding of `XSUAA.GetBearerToken`. The named result `err` of the Go
function is the variable `err` below; the result of `json.Unmarshal` is bound
to `parsingErr`, and the test that follows it reads `err`, as in the source. -/
def XSUAA.GetBearerToken (env : Env) (x : XSUAA) (w : World)
    (oauthUrl clientID clientSecret : String) : After :=
  let method := "GET"
  match env.urlParse oauthUrl with
  | Except.error err => { x := x, w := w, err := Result.ret (some err) }
  | Except.ok oauthBaseUrl =>
    let entireUrl := oauthBaseUrl.Scheme ++ "://" ++ oauthBaseUrl.Host ++ "/" ++ urlPathAndQuery
    let clientOptions : ClientOptions :=
      { Username := clientID, Password := clientSecret, Token := "" }
    let x1 : XSUAA := { x with client := x.client.SetOptions clientOptions }
    let header : Header := Header.Add [] "Accept" "application/json"
    let sent := x1.client.SendRequest env w method entireUrl none header none
    let w1 := sent.1
    let response := sent.2.1
    let httpErr := sent.2.2
    if httpErr ≠ none then
      { x := x1, w := SetErrorCategory w1 ErrorCategory.ErrorService,
        err := Result.ret (Wrapf httpErr ("HTTP " ++ method ++ " request failed")) }
    else
      match readResponseBody w1 response with
      | (w2, Result.panic) => { x := x1, w := w2, err := Result.panic }
      | (w2, Result.ret (bodyText, err)) =>
        if err ≠ none then { x := x1, w := w2, err := Result.ret err }
        else
          match response with
          | none => { x := x1, w := w2, err := Result.panic }
          | some r =>
            if r.StatusCode ≠ 200 then
              { x := x1, w := w2,
                err := Result.ret (some (Err.errorf
                  ("expected response code 200, got '" ++ toString r.StatusCode
                    ++ "', response body: '" ++ bodyText ++ "'"))) }
            else
              let unmarshalled := Json.Unmarshal bodyText x1.AuthToken
              let x2 : XSUAA := { x1 with AuthToken := unmarshalled.1 }
              let parsingErr := unmarshalled.2
              if err ≠ none then
                { x := x2, w := w2,
                  err := Result.ret (Wrapf parsingErr
                    ("HTTP response body could not be parsed as JSON: " ++ bodyText)) }
              else if x2.AuthToken.AccessToken = "" then
                { x := x2, w := w2,
                  err := Result.ret (some (Err.errorf
                    ("expected authToken field 'access_token' in json response; response body: '"
                      ++ bodyText ++ "'"))) }
              else
                let x3 : XSUAA :=
                  if x2.AuthToken.TokenType = "" then
                    { x2 with AuthToken := { x2.AuthToken with TokenType := "bearer" } }
                  else x2
                { x := x3, w := w2, err := Result.ret err }

/-- Embedding of `XSUAA.SetBearerToken`. -/
def XSUAA.SetBearerToken (env : Env) (x : XSUAA) (w : World)
    (oauthBaseUrl clientID clientSecret : String) : After :=
  let got := x.GetBearerToken env w oauthBaseUrl clientID clientSecret
  match got.err with
  | Result.panic => got
  | Result.ret (some err) => { x := got.x, w := got.w, err := Result.ret (some err) }
  | Result.ret none =>
    let options : ClientOptions :=
      { Username := "", Password := "",
        Token := got.x.AuthToken.TokenType ++ " " ++ got.x.AuthToken.AccessToken }
    { x := { got.x with client := got.x.client.SetOptions options }, w := got.w,
      err := Result.ret none }

/-! ## pkg/protecode/api.go -/

/-- The Protecode client. -/
structure Protecode where
  serverURL : String
  client : Client
deriving DecidableEq, Repr

/-- The constant `endpointProduct`, `"/api/product/%v/"`, applied to a product id. -/
def endpointProduct (productID : Int) : String :=
  "/api/product/" ++ toString productID ++ "/"

/-- Embedding of `Protecode.send`: on success it returns a pointer to the body
of the response, which dereferences the response. -/
def Protecode.send (env : Env) (pc : Protecode) (w : World) (method url : String)
    (headers : Header) : World × Result (Option (Option Body) × Option Err) :=
  let sent := pc.client.SendRequest env w method url none headers none
  let r := sent.2.1
  let err := sent.2.2
  if err ≠ none then (sent.1, Result.ret (none, err))
  else
    match r with
    | none => (sent.1, Result.panic)
    | some resp => (sent.1, Result.ret (some resp.Body, none))

/-- Embedding of `Protecode.deleteResult`. The method `createURL` is not among
the sources and is a parameter. -/
def Protecode.deleteResult (env : Env) (createURL : Protecode → String → String → String → String)
    (pc : Protecode) (w : World) (productID : Int) : World × Result (Option Err) :=
  let protecodeURL := createURL pc (endpointProduct productID) "" ""
  let headers : Header := []
  match pc.send env w "DELETE" protecodeURL headers with
  | (w1, Result.panic) => (w1, Result.panic)
  | (w1, Result.ret (_, err)) =>
    if err ≠ none then
      (w1, Result.ret (Wrapf err ("failed to delete result: " ++ protecodeURL)))
    else (w1, Result.ret none)

/-! ## Vocabulary of the statements -/

/-- The request `GetBearerToken` issues for a parsed base URL. -/
def tokenRequest (u : URL) (clientID clientSecret : String) : Sent :=
  { options := { Username := clientID, Password := clientSecret, Token := "" },
    method := "GET",
    url := u.Scheme ++ "://" ++ u.Host
      ++ "/oauth/token?grant_type=client_credentials&response_type=token",
    body := none,
    header := [("Accept", ["application/json"])],
    cookies := none }

/-- The client after `GetBearerToken` has stored the credentials in its options. -/
def withCredentials (x : XSUAA) (clientID clientSecret : String) : XSUAA :=
  { x with client := { options := { Username := clientID, Password := clientSecret, Token := "" } } }

/-- The world after one more call of `SendRequest`. -/
def afterSend (w : World) (s : Sent) : World := { w with sent := w.sent ++ [s] }

/-- The world after one more response body was read and closed. -/
def afterRead (w : World) : World :=
  { w with bodiesRead := w.bodiesRead + 1, bodiesClosed := w.bodiesClosed + 1 }

/-- The end of `GetBearerToken` for a status-200 response with a readable
body: what `json.Unmarshal` leaves in the struct decides. -/
def afterUnmarshal (x : XSUAA) (w : World) (bodyText : String) : After :=
  let tok := (Json.Unmarshal bodyText x.AuthToken).1
  if tok.AccessToken = "" then
    { x := { x with AuthToken := tok }, w := w,
      err := Result.ret (some (Err.errorf
        ("expected authToken field 'access_token' in json response; response body: '"
          ++ bodyText ++ "'"))) }
  else if tok.TokenType = "" then
    { x := { x with AuthToken := { tok with TokenType := "bearer" } }, w := w,
      err := Result.ret none }
  else { x := { x with AuthToken := tok }, w := w, err := Result.ret none }

/-- No member of the object is stored into the field. -/
def Json.Absent (f : Json.Field) (ms : List (String × Json.Value)) : Prop :=
  ∀ m ∈ ms, Json.findField m.1 ≠ some f

/-- The object gives the field the string `v`: a member stored into the field
has the string value `v`, and no later member is stored into the field. -/
def Json.LastString (f : Json.Field) (ms : List (String × Json.Value)) (v : String) : Prop :=
  ∃ pre key post, ms = pre ++ (key, Json.Value.string v) :: post
    ∧ Json.findField key = some f ∧ Json.Absent f post

/-- What a response object says about `token_type`: `some v` when it gives the
string `v`, `none` when it has no such member. -/
def Json.TokenTypeIs (ms : List (String × Json.Value)) : Option String → Prop
  | some v => Json.LastString Json.Field.TokenType ms v
  | none => Json.Absent Json.Field.TokenType ms

/-! ## The servers of the test suite -/

/-- A client as the tests create it: no options, no token. -/
def freshXSUAA : XSUAA :=
  { client := { options := { Username := "", Password := "", Token := "" } },
    AuthToken := { TokenType := "", AccessToken := "", ExpiresIn := 0 } }

/-- A world in which nothing has happened yet. -/
def emptyWorld : World :=
  { sent := [], bodiesRead := 0, bodiesClosed := 0,
    errorCategory := ErrorCategory.ErrorUndefined }

/-- Address of the local test server. -/
def serverURL : String := "http://127.0.0.1:8080"

/-- The parse of the address of the test server. -/
def serverBase : URL :=
  { Scheme := "http", Host := "127.0.0.1:8080", Path := "", RawQuery := "", Fragment := "" }

/-- The parse of the address of the test server followed by
`/oauth/token?grant_type=client_credentials`. -/
def serverBaseWithPath : URL :=
  { Scheme := "http", Host := "127.0.0.1:8080", Path := "/oauth/token",
    RawQuery := "grant_type=client_credentials", Fragment := "" }

/-- Error of `url.Parse` for the address `:`. -/
def missingScheme : Err := Err.errorf "parse \":\": missing protocol scheme"

/-- The function `url.Parse` as a table: the two addresses the tests pass,
which parse, and the address `:`, which `url.Parse` rejects for its missing
scheme. No other address is looked at in any statement. -/
def testParse (oauthUrl : String) : Except Err URL :=
  if oauthUrl = "http://127.0.0.1:8080" then Except.ok serverBase
  else if oauthUrl = "http://127.0.0.1:8080/oauth/token?grant_type=client_credentials" then
    Except.ok serverBaseWithPath
  else if oauthUrl = ":" then Except.error missingScheme
  else Except.error (Err.errorf ("parse \"" ++ oauthUrl ++ "\": address outside the table"))

/-- A server that answers every request with the given status and body. -/
def replyEnv (status : Int) (bodyText : String) : Env :=
  { urlParse := testParse,
    roundTrip := fun _ => (some { StatusCode := status, Body := some (Body.text bodyText) }, none) }

/-- Error of `SendRequest` for the 401 answer of the test `HTTP error`. -/
def unauthorized : Err :=
  Err.errorf ("request to http://127.0.0.1:8080/oauth/token?grant_type=client_credentials"
    ++ "&response_type=token returned with response 401 Unauthorized")

/-- A server that answers 401, which `SendRequest` reports as an error. -/
def unauthorizedEnv : Env :=
  { urlParse := testParse,
    roundTrip := fun _ =>
      (some { StatusCode := 401, Body := some (Body.text "\x7b\"error\": \"unauthorized\"\x7d") },
        some unauthorized) }

/-- Body of the test `Straight forward`. -/
def bearerBody : String :=
  "\x7b\"access_token\": \"1234\", \"expires_in\": 9876, \"token_type\": \"bearer\"\x7d"

/-- Body of the test `Different token type`. -/
def jwtBody : String :=
  "\x7b\"access_token\": \"1234\", \"expires_in\": 9876, \"token_type\": \"jwt\"\x7d"

/-- Body of the test `No token type`. -/
def noTypeBody : String := "\x7b\"access_token\": \"1234\", \"expires_in\": 9876\x7d"

/-- Body of the test `No 'access_token' field in json response`. -/
def noTokenBody : String := "\x7b\"authToken\": \"1234\"\x7d"

/-- A token response whose `token_type` is the empty string. -/
def emptyTypeBody : String := "\x7b\"access_token\": \"1234\", \"token_type\": \"\"\x7d"

/-- A token response whose `expires_in` is a string, not an integer. -/
def badExpiryBody : String := "\x7b\"access_token\": \"1234\", \"expires_in\": \"soon\"\x7d"

/-- A client that holds the token of an earlier acquisition of type `jwt`. -/
def jwtXSUAA : XSUAA :=
  { client := { options := { Username := "myClientID", Password := "secret", Token := "" } },
    AuthToken := { TokenType := "jwt", AccessToken := "1234", ExpiresIn := 9876 } }

/-- A client that holds the token of the test `Straight forward`: the state in
which `GetBearerToken` leaves a fresh client after that response. -/
def bearerXSUAA : XSUAA :=
  { client := { options := { Username := "myClientID", Password := "secret", Token := "" } },
    AuthToken := { TokenType := "bearer", AccessToken := "1234", ExpiresIn := 9876 } }

/-- The Protecode client of the tests. -/
def testProtecode : Protecode :=
  { serverURL := "https://example.org",
    client := { options := { Username := "", Password := "", Token := "" } } }

/-- A stand-in for `createURL` that appends path and value to the server URL. -/
def appendURL (pc : Protecode) (path pValue _fParam : String) : String :=
  pc.serverURL ++ path ++ pValue

/-- Error of `SendRequest` for the 400 answer of the test `failure`. -/
def badRequest : Err :=
  Err.errorf "request to https://example.org/api/product/-1/ returned with response 400 Bad Request"

/-- A server that answers 400, which `SendRequest` reports as an error. -/
def badRequestEnv : Env :=
  { urlParse := testParse,
    roundTrip := fun _ =>
      (some { StatusCode := 400, Body := some (Body.text "\x7b\"meta\": \x7b\"code\": 200\x7d\x7d") },
        some badRequest) }

/-! ## The reader of JSON never runs out of fuel -/

namespace Json

/-- Dropping whitespace does not lengthen the input. -/
theorem skipSpace_length_le (cs : List Char) : (skipSpace cs).length ≤ cs.length := by
  induction cs with
  | nil => simp [skipSpace]
  | cons c cs ih =>
    unfold skipSpace
    split
    · exact Nat.le_succ_of_le ih
    · exact Nat.le_refl _

/-- What follows four hexadecimal digits is no longer than the input. -/
theorem hex4_length_le (cs : List Char) (n : Nat) (rest : List Char)
    (h : hex4 cs = some (n, rest)) : rest.length ≤ cs.length := by
  unfold hex4 at h
  split at h
  · split at h
    · simp at h; obtain ⟨_, rfl⟩ := h; simp; omega
    · simp at h
  · simp at h

/-- What follows an escape is no longer than the input. -/
theorem getu4_length_le (cs : List Char) (n : Nat) (rest : List Char)
    (h : getu4 cs = some (n, rest)) : rest.length ≤ cs.length := by
  unfold getu4 at h
  split at h
  · split at h
    · have := hex4_length_le _ _ _ h; simp; omega
    · simp at h
  · simp at h

/-- What follows a string literal is no longer than the input. -/
theorem scanString_length_le (fuel : Nat) (cs acc : List Char) (s : String) (rest : List Char)
    (h : scanString fuel cs acc = some (s, rest)) : rest.length ≤ cs.length := by
  induction fuel generalizing cs acc with
  | zero => simp [scanString] at h
  | succ f ih =>
    cases cs with
    | nil => simp [scanString] at h
    | cons c r =>
      unfold scanString at h
      by_cases h1 : c.toNat = 0x22
      · rw [if_pos h1] at h
        simp only [Option.some.injEq, Prod.mk.injEq] at h
        obtain ⟨_, rfl⟩ := h
        simp
      · rw [if_neg h1] at h
        by_cases h2 : c.toNat = 0x5c
        · rw [if_pos h2] at h
          cases r with
          | nil => simp at h
          | cons e r1 =>
            simp only at h
            by_cases h3 : e.toNat = 0x75
            · have e1 : ¬ (e.toNat = 0x22 ∨ e.toNat = 0x5c ∨ e.toNat = 0x2f) := by omega
              have e2 : ¬ e.toNat = 0x62 := by omega
              have e3 : ¬ e.toNat = 0x66 := by omega
              have e4 : ¬ e.toNat = 0x6e := by omega
              have e5 : ¬ e.toNat = 0x72 := by omega
              have e6 : ¬ e.toNat = 0x74 := by omega
              rw [if_neg e1, if_neg e2, if_neg e3, if_neg e4, if_neg e5, if_neg e6, if_pos h3] at h
              cases hx : hex4 r1 with
              | none => rw [hx] at h; simp at h
              | some p =>
                obtain ⟨rr, r2⟩ := p
                rw [hx] at h
                simp only at h
                have hl := hex4_length_le _ _ _ hx
                cases hg : getu4 r2 with
                | none =>
                  rw [hg] at h
                  have : rest.length ≤ r2.length := by
                    split_ifs at h <;> exact ih _ _ h
                  simp only [List.length_cons]; omega
                | some q =>
                  obtain ⟨rr1, r3⟩ := q
                  rw [hg] at h
                  simp only at h
                  have hl3 := getu4_length_le _ _ _ hg
                  have : rest.length ≤ r2.length := by
                    split_ifs at h
                    · exact Nat.le_trans (ih _ _ h) hl3
                    · exact ih _ _ h
                    · exact ih _ _ h
                  simp only [List.length_cons]; omega
            · rw [if_neg h3] at h
              have : rest.length ≤ r1.length := by
                split_ifs at h <;> exact ih _ _ h
              simp only [List.length_cons]; omega
        · rw [if_neg h2] at h
          split_ifs at h
          have := ih _ _ h
          simp only [List.length_cons]; omega

/-- The two parts of a span make up the list. -/
theorem span_length (p : Char → Bool) (cs : List Char) :
    (cs.span p).1.length + (cs.span p).2.length = cs.length := by
  have h := List.span_eq_take_drop p cs
  rw [h]
  simp only [List.takeWhile_append_dropWhile, ← List.length_append]

/-- What follows an exponent is no longer than the input. -/
theorem scanExp_length_le (lit cs lit2 rest : List Char)
    (h : scanExp lit cs = some (lit2, rest)) : rest.length ≤ cs.length := by
  unfold scanExp at h
  cases cs with
  | nil => simp at h; obtain ⟨_, rfl⟩ := h; simp
  | cons e r =>
    simp only at h
    split_ifs at h
    · simp only [Option.some.injEq, Prod.mk.injEq] at h
      obtain ⟨_, rfl⟩ := h
      cases r with
      | nil => simp [List.span, List.span.loop]
      | cons s r1 =>
        simp only
        split_ifs
        · have := span_length isDigit r1
          simp only [List.length_cons]; omega
        · have := span_length isDigit (s :: r1)
          simp only [List.length_cons] at this ⊢; omega
    · simp only [Option.some.injEq, Prod.mk.injEq] at h
      obtain ⟨_, rfl⟩ := h
      exact Nat.le_refl _

/-- What follows a fraction is no longer than the input. -/
theorem scanFrac_length_le (lit cs lit2 rest : List Char)
    (h : scanFrac lit cs = some (lit2, rest)) : rest.length ≤ cs.length := by
  unfold scanFrac at h
  cases cs with
  | nil => simp at h; obtain ⟨_, rfl⟩ := h; simp
  | cons d r =>
    simp only at h
    split_ifs at h
    · have h1 := scanExp_length_le _ _ _ _ h
      have := span_length isDigit r
      simp only [List.length_cons]; omega
    · exact scanExp_length_le _ _ _ _ h

/-- What follows a number literal is no longer than the input. -/
theorem scanNumber_length_le (cs lit rest : List Char)
    (h : scanNumber cs = some (lit, rest)) : rest.length ≤ cs.length := by
  unfold scanNumber at h
  cases cs with
  | nil => simp at h
  | cons c r =>
    simp only at h
    by_cases hc : c.toNat = 0x2d
    · simp only [if_pos hc] at h
      cases r with
      | nil => simp at h
      | cons d r1 =>
        simp only at h
        split_ifs at h
        · have := scanFrac_length_le _ _ _ _ h
          simp only [List.length_cons]; omega
        · have h1 := scanFrac_length_le _ _ _ _ h
          have := span_length isDigit r1
          simp only [List.length_cons]; omega
    · simp only [if_neg hc] at h
      split_ifs at h
      · have := scanFrac_length_le _ _ _ _ h
        simp only [List.length_cons]; omega
      · have h1 := scanFrac_length_le _ _ _ _ h
        have := span_length isDigit r
        simp only [List.length_cons]; omega

/-- What follows a literal word is no longer than the input. -/
theorem stripWord_length_le (word : String) (cs rest : List Char)
    (h : stripWord word cs = some rest) : rest.length ≤ cs.length := by
  unfold stripWord at h
  split_ifs at h
  simp only [Option.some.injEq] at h
  subst h
  simp


/-- What follows a value, the members of an object or the elements of an array is no longer than the input. -/
theorem parse_length_le (f : Nat) :
    (∀ d cs v rest, parseValue f d cs = some (v, rest) → rest.length ≤ cs.length)
    ∧ (∀ d cs ms rest, parseMembers f d cs = some (ms, rest) → rest.length ≤ cs.length)
    ∧ (∀ d cs xs rest, parseElems f d cs = some (xs, rest) → rest.length ≤ cs.length) := by
  induction f with
  | zero =>
    refine ⟨?_, ?_, ?_⟩ <;> intro d cs v rest h
    · unfold parseValue at h; simp at h
    · unfold parseMembers at h; simp at h
    · unfold parseElems at h; simp at h
  | succ f ih =>
    obtain ⟨ihV, ihM, ihE⟩ := ih
    refine ⟨?_, ?_, ?_⟩
    · intro d cs v rest h
      cases cs with
      | nil => unfold parseValue at h; simp at h
      | cons c r =>
        unfold parseValue at h
        have hsk := skipSpace_length_le r
        by_cases h1 : c.toNat = 0x7b
        · rw [if_pos h1] at h
          split_ifs at h
          cases hs : skipSpace r with
          | nil => rw [hs] at h; simp at h
          | cons d1 r1 =>
            rw [hs] at h hsk
            simp only at h
            split_ifs at h
            · simp only [Option.some.injEq, Prod.mk.injEq] at h
              obtain ⟨_, rfl⟩ := h
              simp only [List.length_cons] at hsk ⊢; omega
            · cases hm : parseMembers f (d + 1) (d1 :: r1) with
              | none => rw [hm] at h; simp at h
              | some p =>
                obtain ⟨ms, rest2⟩ := p
                rw [hm] at h
                simp only [Option.some.injEq, Prod.mk.injEq] at h
                obtain ⟨_, rfl⟩ := h
                have := ihM _ _ _ _ hm
                simp only [List.length_cons] at hsk this ⊢; omega
        · rw [if_neg h1] at h
          by_cases h2 : c.toNat = 0x5b
          · rw [if_pos h2] at h
            split_ifs at h
            cases hs : skipSpace r with
            | nil => rw [hs] at h; simp at h
            | cons d1 r1 =>
              rw [hs] at h hsk
              simp only at h
              split_ifs at h
              · simp only [Option.some.injEq, Prod.mk.injEq] at h
                obtain ⟨_, rfl⟩ := h
                simp only [List.length_cons] at hsk ⊢; omega
              · cases hm : parseElems f (d + 1) (d1 :: r1) with
                | none => rw [hm] at h; simp at h
                | some p =>
                  obtain ⟨xs, rest2⟩ := p
                  rw [hm] at h
                  simp only [Option.some.injEq, Prod.mk.injEq] at h
                  obtain ⟨_, rfl⟩ := h
                  have := ihE _ _ _ _ hm
                  simp only [List.length_cons] at hsk this ⊢; omega
          · rw [if_neg h2] at h
            by_cases h3 : c.toNat = 0x22
            · rw [if_pos h3] at h
              cases hm : scanString (r.length + 1) r [] with
              | none => rw [hm] at h; simp at h
              | some p =>
                obtain ⟨str, rest2⟩ := p
                rw [hm] at h
                simp only [Option.some.injEq, Prod.mk.injEq] at h
                obtain ⟨_, rfl⟩ := h
                have := scanString_length_le _ _ _ _ _ hm
                simp only [List.length_cons]; omega
            · rw [if_neg h3] at h
              by_cases h4 : c.toNat = 0x2d ∨ isDigit c = true
              · rw [if_pos h4] at h
                cases hm : scanNumber (c :: r) with
                | none => rw [hm] at h; simp at h
                | some p =>
                  obtain ⟨lit, rest2⟩ := p
                  rw [hm] at h
                  simp only [Option.some.injEq, Prod.mk.injEq] at h
                  obtain ⟨_, rfl⟩ := h
                  exact scanNumber_length_le _ _ _ hm
              · rw [if_neg h4] at h
                by_cases h5 : c.toNat = 0x74
                · rw [if_pos h5] at h
                  cases hm : stripWord "true" (c :: r) with
                  | none => rw [hm] at h; simp at h
                  | some rest2 =>
                    rw [hm] at h
                    simp only [Option.some.injEq, Prod.mk.injEq] at h
                    obtain ⟨_, rfl⟩ := h
                    exact stripWord_length_le _ _ _ hm
                · rw [if_neg h5] at h
                  by_cases h6 : c.toNat = 0x66
                  · rw [if_pos h6] at h
                    cases hm : stripWord "false" (c :: r) with
                    | none => rw [hm] at h; simp at h
                    | some rest2 =>
                      rw [hm] at h
                      simp only [Option.some.injEq, Prod.mk.injEq] at h
                      obtain ⟨_, rfl⟩ := h
                      exact stripWord_length_le _ _ _ hm
                  · rw [if_neg h6] at h
                    by_cases h7 : c.toNat = 0x6e
                    · rw [if_pos h7] at h
                      cases hm : stripWord "null" (c :: r) with
                      | none => rw [hm] at h; simp at h
                      | some rest2 =>
                        rw [hm] at h
                        simp only [Option.some.injEq, Prod.mk.injEq] at h
                        obtain ⟨_, rfl⟩ := h
                        exact stripWord_length_le _ _ _ hm
                    · rw [if_neg h7] at h
                      simp at h
    · intro d cs ms rest h
      cases cs with
      | nil => unfold parseMembers at h; simp at h
      | cons q r =>
        unfold parseMembers at h
        split_ifs at h
        cases hm : scanString (r.length + 1) r [] with
        | none => rw [hm] at h; simp at h
        | some p =>
          obtain ⟨key, r1⟩ := p
          rw [hm] at h
          simp only at h
          have hl1 := scanString_length_le _ _ _ _ _ hm
          have hsk1 := skipSpace_length_le r1
          cases hs : skipSpace r1 with
          | nil => rw [hs] at h; simp at h
          | cons colon r2 =>
            rw [hs] at h hsk1
            simp only at h
            split_ifs at h
            have hsk2 := skipSpace_length_le r2
            cases hv : parseValue f d (skipSpace r2) with
            | none => rw [hv] at h; simp at h
            | some p2 =>
              obtain ⟨v, r3⟩ := p2
              rw [hv] at h
              simp only at h
              have hl3 := ihV _ _ _ _ hv
              have hsk3 := skipSpace_length_le r3
              cases hs3 : skipSpace r3 with
              | nil => rw [hs3] at h; simp at h
              | cons d1 r4 =>
                rw [hs3] at h hsk3
                simp only at h
                split_ifs at h
                · have hsk4 := skipSpace_length_le r4
                  cases hm2 : parseMembers f d (skipSpace r4) with
                  | none => rw [hm2] at h; simp at h
                  | some p3 =>
                    obtain ⟨ms2, rest2⟩ := p3
                    rw [hm2] at h
                    simp only [Option.some.injEq, Prod.mk.injEq] at h
                    obtain ⟨_, rfl⟩ := h
                    have := ihM _ _ _ _ hm2
                    simp only [List.length_cons] at hsk1 hsk3 ⊢; omega
                · simp only [Option.some.injEq, Prod.mk.injEq] at h
                  obtain ⟨_, rfl⟩ := h
                  simp only [List.length_cons] at hsk1 hsk3 ⊢; omega
    · intro d cs xs rest h
      unfold parseElems at h
      cases hv : parseValue f d cs with
      | none => rw [hv] at h; simp at h
      | some p2 =>
        obtain ⟨v, r1⟩ := p2
        rw [hv] at h
        simp only at h
        have hl1 := ihV _ _ _ _ hv
        have hsk1 := skipSpace_length_le r1
        cases hs : skipSpace r1 with
        | nil => rw [hs] at h; simp at h
        | cons d1 r2 =>
          rw [hs] at h hsk1
          simp only at h
          split_ifs at h
          · have hsk2 := skipSpace_length_le r2
            cases hm2 : parseElems f d (skipSpace r2) with
            | none => rw [hm2] at h; simp at h
            | some p3 =>
              obtain ⟨xs2, rest2⟩ := p3
              rw [hm2] at h
              simp only [Option.some.injEq, Prod.mk.injEq] at h
              obtain ⟨_, rfl⟩ := h
              have := ihE _ _ _ _ hm2
              simp only [List.length_cons] at hsk1 ⊢; omega
          · simp only [Option.some.injEq, Prod.mk.injEq] at h
            obtain ⟨_, rfl⟩ := h
            simp only [List.length_cons] at hsk1 ⊢; omega


/-- With fuel of at least twice the length of the input plus two (plus three for
members and elements), one more unit of fuel changes nothing. -/
theorem fuel_step (f : Nat) :
    (∀ d cs, 2 * cs.length + 2 ≤ f → parseValue (f + 1) d cs = parseValue f d cs)
    ∧ (∀ d cs, 2 * cs.length + 3 ≤ f → parseMembers (f + 1) d cs = parseMembers f d cs)
    ∧ (∀ d cs, 2 * cs.length + 3 ≤ f → parseElems (f + 1) d cs = parseElems f d cs) := by
  induction f with
  | zero =>
    refine ⟨?_, ?_, ?_⟩ <;> intro d cs h <;> omega
  | succ f ih =>
    obtain ⟨ihV, ihM, ihE⟩ := ih
    refine ⟨?_, ?_, ?_⟩
    · intro d cs hf
      cases cs with
      | nil => unfold parseValue; rfl
      | cons c r =>
        unfold parseValue
        have hsk := skipSpace_length_le r
        simp only [List.length_cons] at hf
        by_cases h1 : c.toNat = 0x7b
        · simp only [if_pos h1]
          by_cases hd : maxNestingDepth ≤ d
          · simp only [if_pos hd]
          · simp only [if_neg hd]
            cases hs : skipSpace r with
            | nil => rfl
            | cons d1 r1 =>
              simp only
              rw [hs] at hsk
              simp only [List.length_cons] at hsk
              rw [ihM (d + 1) (d1 :: r1) (by simp only [List.length_cons]; omega)]
        · simp only [if_neg h1]
          by_cases h2 : c.toNat = 0x5b
          · simp only [if_pos h2]
            by_cases hd : maxNestingDepth ≤ d
            · simp only [if_pos hd]
            · simp only [if_neg hd]
              cases hs : skipSpace r with
              | nil => rfl
              | cons d1 r1 =>
                simp only
                rw [hs] at hsk
                simp only [List.length_cons] at hsk
                rw [ihE (d + 1) (d1 :: r1) (by simp only [List.length_cons]; omega)]
          · simp only [if_neg h2]
    · intro d cs hf
      cases cs with
      | nil => unfold parseMembers; rfl
      | cons q r =>
        unfold parseMembers
        simp only [List.length_cons] at hf
        by_cases h1 : q.toNat = 0x22
        · simp only [if_pos h1]
          cases hm : scanString (r.length + 1) r [] with
          | none => rfl
          | some p =>
            obtain ⟨key, r1⟩ := p
            simp only
            have hl1 := scanString_length_le _ _ _ _ _ hm
            have hsk1 := skipSpace_length_le r1
            cases hs : skipSpace r1 with
            | nil => rfl
            | cons colon r2 =>
              simp only
              rw [hs] at hsk1
              simp only [List.length_cons] at hsk1
              by_cases h2 : colon.toNat = 0x3a
              · simp only [if_pos h2]
                have hsk2 := skipSpace_length_le r2
                rw [ihV d (skipSpace r2) (by omega)]
                cases hv : parseValue f d (skipSpace r2) with
                | none => rfl
                | some p2 =>
                  obtain ⟨v, r3⟩ := p2
                  simp only
                  have hl3 := (parse_length_le f).1 _ _ _ _ hv
                  have hsk3 := skipSpace_length_le r3
                  cases hs3 : skipSpace r3 with
                  | nil => rfl
                  | cons d1 r4 =>
                    simp only
                    rw [hs3] at hsk3
                    simp only [List.length_cons] at hsk3
                    have hsk4 := skipSpace_length_le r4
                    rw [ihM d (skipSpace r4) (by omega)]
              · simp only [if_neg h2]
        · simp only [if_neg h1]
    · intro d cs hf
      unfold parseElems
      rw [ihV d cs (by omega)]
      cases hv : parseValue f d cs with
      | none => rfl
      | some p2 =>
        obtain ⟨v, r1⟩ := p2
        simp only
        have hl1 := (parse_length_le f).1 _ _ _ _ hv
        have hsk1 := skipSpace_length_le r1
        cases hs : skipSpace r1 with
        | nil => rfl
        | cons d1 r2 =>
          simp only
          rw [hs] at hsk1
          simp only [List.length_cons] at hsk1
          have hsk2 := skipSpace_length_le r2
          rw [ihE d (skipSpace r2) (by omega)]


/-- Fuel beyond twice the length of the input plus two changes nothing: the
reader of values never stops for lack of fuel. -/
theorem parseValue_fuel (k f d : Nat) (cs : List Char) (h : 2 * cs.length + 2 ≤ f) :
    parseValue (f + k) d cs = parseValue f d cs := by
  induction k with
  | zero => rfl
  | succ k ih =>
    rw [← Nat.add_assoc, (fuel_step (f + k)).1 d cs (by omega), ih]

/-- The result of `parse` is the result for every larger amount of fuel. -/
theorem parse_fuel (data : String) (f : Nat) (h : 2 * (skipSpace data.toList).length + 2 ≤ f) :
    (match parseValue f 0 (skipSpace data.toList) with
      | some (v, rest) => if (skipSpace rest).isEmpty then some v else none
      | none => none) = parse data := by
  obtain ⟨k, rfl⟩ := Nat.exists_eq_add_of_le h
  unfold parse
  simp only [parseValue_fuel k _ 0 _ (Nat.le_refl _)]

end Json

/-! ## Paths of `GetBearerToken` -/

/-- The URL of the request, with the constant path and query written out. -/
theorem entireUrl_eq (a : String) :
    a ++ "/" ++ urlPathAndQuery
      = a ++ "/oauth/token?grant_type=client_credentials&response_type=token" := by
  rw [String.append_assoc]; rfl

/-- Reading a body sends no request. -/
theorem readResponseBody_sent (w : World) (response : Option Response) :
    (readResponseBody w response).1.sent = w.sent := by
  unfold readResponseBody
  split
  · rfl
  · split
    · rfl
    · split <;> rfl

/-- The call of `SendRequest` in `GetBearerToken`: it logs the token request and returns the reply to it. -/
theorem tokenRequest_send (env : Env) (x : XSUAA) (w : World) (u : URL)
    (clientID clientSecret : String) :
    Client.SendRequest env
        (x.client.SetOptions { Username := clientID, Password := clientSecret, Token := "" }) w "GET"
        (u.Scheme ++ "://" ++ u.Host ++ "/" ++ urlPathAndQuery) none
        (Header.Add [] "Accept" "application/json") none
      = (afterSend w (tokenRequest u clientID clientSecret),
          env.roundTrip (w.sent ++ [tokenRequest u clientID clientSecret])) := by
  simp [Client.SendRequest, Client.SetOptions, tokenRequest, entireUrl_eq, Header.Add, afterSend]

/-- Path 1: `url.Parse` rejects the URL. -/
theorem GetBearerToken_parse_error (env : Env) (x : XSUAA) (w : World)
    (oauthUrl clientID clientSecret : String) (e : Err)
    (hu : env.urlParse oauthUrl = Except.error e) :
    x.GetBearerToken env w oauthUrl clientID clientSecret
      = { x := x, w := w, err := Result.ret (some e) } := by
  unfold XSUAA.GetBearerToken
  simp only [hu]

/-- Path 2: `SendRequest` returns an error. -/
theorem GetBearerToken_transport_error (env : Env) (x : XSUAA) (w : World)
    (oauthUrl clientID clientSecret : String) (u : URL) (resp : Option Response) (e : Err)
    (hu : env.urlParse oauthUrl = Except.ok u)
    (hr : env.roundTrip (w.sent ++ [tokenRequest u clientID clientSecret]) = (resp, some e)) :
    x.GetBearerToken env w oauthUrl clientID clientSecret
      = { x := withCredentials x clientID clientSecret,
          w := SetErrorCategory (afterSend w (tokenRequest u clientID clientSecret))
                 ErrorCategory.ErrorService,
          err := Result.ret (some (Err.wrap e "HTTP GET request failed")) } := by
  unfold XSUAA.GetBearerToken
  simp only [hu, tokenRequest_send, hr]
  simp [Wrapf, withCredentials, Client.SetOptions]

/-- Path 3: `SendRequest` returns neither an error nor a response. -/
theorem GetBearerToken_no_response (env : Env) (x : XSUAA) (w : World)
    (oauthUrl clientID clientSecret : String) (u : URL)
    (hu : env.urlParse oauthUrl = Except.ok u)
    (hr : env.roundTrip (w.sent ++ [tokenRequest u clientID clientSecret]) = (none, none)) :
    x.GetBearerToken env w oauthUrl clientID clientSecret
      = { x := withCredentials x clientID clientSecret,
          w := afterSend w (tokenRequest u clientID clientSecret),
          err := Result.ret (some (Err.errorf "did not retrieve an HTTP response")) } := by
  unfold XSUAA.GetBearerToken
  simp only [hu, tokenRequest_send, hr]
  simp [readResponseBody, withCredentials, Client.SetOptions]

/-- Path 4: the response has a nil body, and reading it panics. -/
theorem GetBearerToken_nil_body (env : Env) (x : XSUAA) (w : World)
    (oauthUrl clientID clientSecret : String) (u : URL) (r : Response)
    (hu : env.urlParse oauthUrl = Except.ok u)
    (hr : env.roundTrip (w.sent ++ [tokenRequest u clientID clientSecret]) = (some r, none))
    (hb : r.Body = none) :
    x.GetBearerToken env w oauthUrl clientID clientSecret
      = { x := withCredentials x clientID clientSecret,
          w := afterSend w (tokenRequest u clientID clientSecret),
          err := Result.panic } := by
  unfold XSUAA.GetBearerToken
  simp only [hu, tokenRequest_send, hr]
  simp [readResponseBody, withCredentials, Client.SetOptions, hb]

/-- Path 5: the body cannot be read. -/
theorem GetBearerToken_broken_body (env : Env) (x : XSUAA) (w : World)
    (oauthUrl clientID clientSecret : String) (u : URL) (r : Response) (e : Err)
    (hu : env.urlParse oauthUrl = Except.ok u)
    (hr : env.roundTrip (w.sent ++ [tokenRequest u clientID clientSecret]) = (some r, none))
    (hb : r.Body = some (Body.broken e)) :
    x.GetBearerToken env w oauthUrl clientID clientSecret
      = { x := withCredentials x clientID clientSecret,
          w := afterRead (afterSend w (tokenRequest u clientID clientSecret)),
          err := Result.ret (some (Err.wrap e "HTTP response body could not be read")) } := by
  unfold XSUAA.GetBearerToken
  simp only [hu, tokenRequest_send, hr]
  simp [readResponseBody, withCredentials, Client.SetOptions, hb, afterRead]

/-- Path 6: the status is not 200. -/
theorem GetBearerToken_wrong_status (env : Env) (x : XSUAA) (w : World)
    (oauthUrl clientID clientSecret : String) (u : URL) (r : Response) (bodyText : String)
    (hu : env.urlParse oauthUrl = Except.ok u)
    (hr : env.roundTrip (w.sent ++ [tokenRequest u clientID clientSecret]) = (some r, none))
    (hb : r.Body = some (Body.text bodyText))
    (hs : r.StatusCode ≠ 200) :
    x.GetBearerToken env w oauthUrl clientID clientSecret
      = { x := withCredentials x clientID clientSecret,
          w := afterRead (afterSend w (tokenRequest u clientID clientSecret)),
          err := Result.ret (some (Err.errorf
            ("expected response code 200, got '" ++ toString r.StatusCode
              ++ "', response body: '" ++ bodyText ++ "'"))) } := by
  unfold XSUAA.GetBearerToken
  simp only [hu, tokenRequest_send, hr]
  simp [readResponseBody, withCredentials, Client.SetOptions, hb, afterRead, hs]

/-- Path 7: status 200 and a readable body; the body goes to `json.Unmarshal`. -/
theorem GetBearerToken_status_ok (env : Env) (x : XSUAA) (w : World)
    (oauthUrl clientID clientSecret : String) (u : URL) (r : Response) (bodyText : String)
    (hu : env.urlParse oauthUrl = Except.ok u)
    (hr : env.roundTrip (w.sent ++ [tokenRequest u clientID clientSecret]) = (some r, none))
    (hb : r.Body = some (Body.text bodyText))
    (hs : r.StatusCode = 200) :
    x.GetBearerToken env w oauthUrl clientID clientSecret
      = afterUnmarshal (withCredentials x clientID clientSecret)
          (afterRead (afterSend w (tokenRequest u clientID clientSecret))) bodyText := by
  unfold XSUAA.GetBearerToken
  simp only [hu, tokenRequest_send, hr]
  simp [readResponseBody, withCredentials, Client.SetOptions, hb, afterRead, hs, afterUnmarshal]
  split <;> [rfl; (split <;> rfl)]


/-- A nil return of `GetBearerToken` comes from the last path only: the URL
parsed, the transport gave a response and no error, its body was read, the
status was 200, and `json.Unmarshal` left a non-empty access token. -/
theorem GetBearerToken_nil_inv (env : Env) (x : XSUAA) (w : World)
    (oauthUrl clientID clientSecret : String)
    (h : (x.GetBearerToken env w oauthUrl clientID clientSecret).err = Result.ret none) :
    ∃ u r bodyText,
      env.urlParse oauthUrl = Except.ok u ∧
      env.roundTrip (w.sent ++ [tokenRequest u clientID clientSecret]) = (some r, none) ∧
      r.Body = some (Body.text bodyText) ∧ r.StatusCode = 200 ∧
      x.GetBearerToken env w oauthUrl clientID clientSecret
        = afterUnmarshal (withCredentials x clientID clientSecret)
            (afterRead (afterSend w (tokenRequest u clientID clientSecret))) bodyText := by
  cases hu : env.urlParse oauthUrl with
  | error e =>
    rw [GetBearerToken_parse_error env x w oauthUrl clientID clientSecret e hu] at h
    simp at h
  | ok u =>
    rcases hr : env.roundTrip (w.sent ++ [tokenRequest u clientID clientSecret]) with ⟨resp, e⟩
    cases e with
    | some e =>
      rw [GetBearerToken_transport_error env x w oauthUrl clientID clientSecret u resp e hu hr] at h
      simp at h
    | none =>
      cases resp with
      | none =>
        rw [GetBearerToken_no_response env x w oauthUrl clientID clientSecret u hu hr] at h
        simp at h
      | some r =>
        cases hb : r.Body with
        | none =>
          rw [GetBearerToken_nil_body env x w oauthUrl clientID clientSecret u r hu hr hb] at h
          simp at h
        | some b =>
          cases b with
          | broken e =>
            rw [GetBearerToken_broken_body env x w oauthUrl clientID clientSecret u r e hu hr hb] at h
            simp at h
          | text t =>
            by_cases hs : r.StatusCode = 200
            · exact ⟨u, r, t, rfl, hr, hb, hs,
                GetBearerToken_status_ok env x w oauthUrl clientID clientSecret u r t hu hr hb hs⟩
            · rw [GetBearerToken_wrong_status env x w oauthUrl clientID clientSecret u r t hu hr hb hs] at h
              simp at h

/-- On the last path the outcome is nil exactly when the access token left by
`json.Unmarshal` is non-empty. -/
theorem afterUnmarshal_err (x : XSUAA) (w : World) (bodyText : String) :
    (afterUnmarshal x w bodyText).err
      = if (Json.Unmarshal bodyText x.AuthToken).1.AccessToken = "" then
          Result.ret (some (Err.errorf
            ("expected authToken field 'access_token' in json response; response body: '"
              ++ bodyText ++ "'")))
        else Result.ret none := by
  unfold afterUnmarshal
  simp only []
  split
  · rfl
  · split <;> rfl

/-- Token type on the last path: the value left by `json.Unmarshal`, or `bearer` when that is empty. -/
theorem afterUnmarshal_TokenType (x : XSUAA) (w : World) (bodyText : String)
    (h : (Json.Unmarshal bodyText x.AuthToken).1.AccessToken ≠ "") :
    (afterUnmarshal x w bodyText).x.AuthToken.TokenType
      = if (Json.Unmarshal bodyText x.AuthToken).1.TokenType = "" then "bearer"
        else (Json.Unmarshal bodyText x.AuthToken).1.TokenType := by
  unfold afterUnmarshal
  simp only [if_neg h]
  split <;> rfl

/-- Access token on the last path: the value left by `json.Unmarshal`. -/
theorem afterUnmarshal_AccessToken (x : XSUAA) (w : World) (bodyText : String) :
    (afterUnmarshal x w bodyText).x.AuthToken.AccessToken
      = (Json.Unmarshal bodyText x.AuthToken).1.AccessToken := by
  unfold afterUnmarshal
  simp only []
  split
  · rfl
  · split <;> rfl

/-- The last path leaves the client of the receiver as it is. -/
theorem afterUnmarshal_client (x : XSUAA) (w : World) (bodyText : String) :
    (afterUnmarshal x w bodyText).x.client = x.client := by
  unfold afterUnmarshal
  simp only []
  split
  · rfl
  · split <;> rfl

/-- The last path leaves the world as it is. -/
theorem afterUnmarshal_world (x : XSUAA) (w : World) (bodyText : String) :
    (afterUnmarshal x w bodyText).w = w := by
  unfold afterUnmarshal
  simp only []
  split
  · rfl
  · split <;> rfl

/-! ## Decoding of an object into the struct -/

/-- Storing into another field leaves the token type as it is. -/
theorem setField_TokenType_other (tok : AuthToken) (f : Json.Field) (v : Json.Value)
    (hf : f ≠ Json.Field.TokenType) :
    (Json.setField tok f v).1.TokenType = tok.TokenType := by
  cases f <;> cases v <;> simp [Json.setField] at hf ⊢
  all_goals split <;> rfl

/-- Storing into another field leaves the access token as it is. -/
theorem setField_AccessToken_other (tok : AuthToken) (f : Json.Field) (v : Json.Value)
    (hf : f ≠ Json.Field.AccessToken) :
    (Json.setField tok f v).1.AccessToken = tok.AccessToken := by
  cases f <;> cases v <;> simp [Json.setField] at hf ⊢
  all_goals split <;> rfl

/-- A member whose key matches no field is skipped. -/
theorem decodeMembers_cons_none (key : String) (v : Json.Value) (ms : List (String × Json.Value))
    (tok : AuthToken) (saved : Option Err) (h : Json.findField key = none) :
    Json.decodeMembers ((key, v) :: ms) tok saved = Json.decodeMembers ms tok saved := by
  rw [Json.decodeMembers]; simp only [h]

/-- A member whose key matches a field is stored, and the first error is kept. -/
theorem decodeMembers_cons_some (key : String) (v : Json.Value) (ms : List (String × Json.Value))
    (tok : AuthToken) (saved : Option Err) (f : Json.Field) (h : Json.findField key = some f) :
    Json.decodeMembers ((key, v) :: ms) tok saved
      = Json.decodeMembers ms (Json.setField tok f v).1
          (if saved.isSome then saved else (Json.setField tok f v).2) := by
  rw [Json.decodeMembers]; simp only [h]

/-- Members that are not stored into `token_type` leave the token type as it is. -/
theorem decodeMembers_TokenType_absent (ms : List (String × Json.Value)) (tok : AuthToken)
    (saved : Option Err) (h : Json.Absent Json.Field.TokenType ms) :
    (Json.decodeMembers ms tok saved).1.TokenType = tok.TokenType := by
  induction ms generalizing tok saved with
  | nil => rfl
  | cons m ms ih =>
    obtain ⟨key, v⟩ := m
    have htail : Json.Absent Json.Field.TokenType ms := fun m hm => h m (List.mem_cons_of_mem _ hm)
    have hkey : Json.findField key ≠ some Json.Field.TokenType := h (key, v) (List.mem_cons_self _ _)
    cases hf : Json.findField key with
    | none => rw [decodeMembers_cons_none key v ms tok saved hf]; exact ih tok saved htail
    | some f =>
      have hne : f ≠ Json.Field.TokenType := fun hEq => hkey (by rw [hf, hEq])
      rw [decodeMembers_cons_some key v ms tok saved f hf, ih _ _ htail,
        setField_TokenType_other tok f v hne]

/-- Members that are not stored into `access_token` leave the access token as it is. -/
theorem decodeMembers_AccessToken_absent (ms : List (String × Json.Value)) (tok : AuthToken)
    (saved : Option Err) (h : Json.Absent Json.Field.AccessToken ms) :
    (Json.decodeMembers ms tok saved).1.AccessToken = tok.AccessToken := by
  induction ms generalizing tok saved with
  | nil => rfl
  | cons m ms ih =>
    obtain ⟨key, v⟩ := m
    have htail : Json.Absent Json.Field.AccessToken ms := fun m hm => h m (List.mem_cons_of_mem _ hm)
    have hkey : Json.findField key ≠ some Json.Field.AccessToken := h (key, v) (List.mem_cons_self _ _)
    cases hf : Json.findField key with
    | none => rw [decodeMembers_cons_none key v ms tok saved hf]; exact ih tok saved htail
    | some f =>
      have hne : f ≠ Json.Field.AccessToken := fun hEq => hkey (by rw [hf, hEq])
      rw [decodeMembers_cons_some key v ms tok saved f hf, ih _ _ htail,
        setField_AccessToken_other tok f v hne]

/-- Decoding a concatenation decodes the first part and then the second. -/
theorem decodeMembers_append (pre post : List (String × Json.Value)) (tok : AuthToken)
    (saved : Option Err) :
    Json.decodeMembers (pre ++ post) tok saved
      = Json.decodeMembers post (Json.decodeMembers pre tok saved).1
          (Json.decodeMembers pre tok saved).2 := by
  induction pre generalizing tok saved with
  | nil => rfl
  | cons m pre ih =>
    obtain ⟨key, v⟩ := m
    simp only [List.cons_append]
    cases hf : Json.findField key with
    | none =>
      rw [decodeMembers_cons_none key v _ tok saved hf, decodeMembers_cons_none key v _ tok saved hf]
      exact ih tok saved
    | some f =>
      rw [decodeMembers_cons_some key v _ tok saved f hf,
        decodeMembers_cons_some key v _ tok saved f hf]
      exact ih _ _

/-- The string the object gives for `token_type` is the token type after decoding. -/
theorem decodeMembers_TokenType_last (ms : List (String × Json.Value)) (tok : AuthToken)
    (saved : Option Err) (v : String) (h : Json.LastString Json.Field.TokenType ms v) :
    (Json.decodeMembers ms tok saved).1.TokenType = v := by
  obtain ⟨pre, key, post, hms, hkey, hpost⟩ := h
  subst hms
  rw [decodeMembers_append, decodeMembers_cons_some key _ post _ _ _ hkey,
    decodeMembers_TokenType_absent _ _ _ hpost]
  simp [Json.setField]

/-- The string the object gives for `access_token` is the access token after decoding. -/
theorem decodeMembers_AccessToken_last (ms : List (String × Json.Value)) (tok : AuthToken)
    (saved : Option Err) (v : String) (h : Json.LastString Json.Field.AccessToken ms v) :
    (Json.decodeMembers ms tok saved).1.AccessToken = v := by
  obtain ⟨pre, key, post, hms, hkey, hpost⟩ := h
  subst hms
  rw [decodeMembers_append, decodeMembers_cons_some key _ post _ _ _ hkey,
    decodeMembers_AccessToken_absent _ _ _ hpost]
  simp [Json.setField]

/-- For a body that is a JSON object, `json.Unmarshal` decodes its members. -/
theorem Unmarshal_object (data : String) (tok : AuthToken) (ms : List (String × Json.Value))
    (h : Json.parse data = some (Json.Value.object ms)) :
    Json.Unmarshal data tok = Json.decodeMembers ms tok none := by
  unfold Json.Unmarshal
  rw [h]

/-- A syntax error leaves the struct untouched. -/
theorem Unmarshal_syntax_error (data : String) (tok : AuthToken) (h : Json.parse data = none) :
    Json.Unmarshal data tok = (tok, some Json.syntaxError) := by
  unfold Json.Unmarshal
  rw [h]

/-! ## Claims on `GetBearerToken` -/

/-- The requests sent by `GetBearerToken` once the URL has parsed: the earlier
ones and the token request. -/
theorem GetBearerToken_sent (env : Env) (x : XSUAA) (w : World)
    (oauthUrl clientID clientSecret : String) (u : URL)
    (hu : env.urlParse oauthUrl = Except.ok u) :
    (x.GetBearerToken env w oauthUrl clientID clientSecret).w.sent
      = w.sent ++ [tokenRequest u clientID clientSecret] := by
  rcases hr : env.roundTrip (w.sent ++ [tokenRequest u clientID clientSecret]) with ⟨resp, e⟩
  cases e with
  | some e =>
    rw [GetBearerToken_transport_error env x w oauthUrl clientID clientSecret u resp e hu hr]
    rfl
  | none =>
    cases resp with
    | none =>
      rw [GetBearerToken_no_response env x w oauthUrl clientID clientSecret u hu hr]
      rfl
    | some r =>
      cases hb : r.Body with
      | none =>
        rw [GetBearerToken_nil_body env x w oauthUrl clientID clientSecret u r hu hr hb]
        rfl
      | some b =>
        cases b with
        | broken e =>
          rw [GetBearerToken_broken_body env x w oauthUrl clientID clientSecret u r e hu hr hb]
          rfl
        | text t =>
          by_cases hs : r.StatusCode = 200
          · rw [GetBearerToken_status_ok env x w oauthUrl clientID clientSecret u r t hu hr hb hs,
              afterUnmarshal_world]
            rfl
          · rw [GetBearerToken_wrong_status env x w oauthUrl clientID clientSecret u r t hu hr hb hs]
            rfl

/-- C1. For every oauthUrl that url.Parse accepts, GetBearerToken issues exactly
one request: method GET, URL `<scheme>://<host>/oauth/token?grant_type=client_credentials&response_type=token`
with the scheme and host of the parsed URL, nil body, header `Accept: application/json`,
no cookies, sent with the client credentials as options. Path, query and
fragment of oauthUrl have no influence: any other accepted URL with the same
scheme and host leads to the same request. -/
theorem GetBearerToken_requests_token_endpoint (env : Env) (x : XSUAA) (w : World)
    (oauthUrl clientID clientSecret : String) (u : URL)
    (hu : env.urlParse oauthUrl = Except.ok u) :
    (x.GetBearerToken env w oauthUrl clientID clientSecret).w.sent
        = w.sent ++
          [{ options := { Username := clientID, Password := clientSecret, Token := "" },
             method := "GET",
             url := u.Scheme ++ "://" ++ u.Host
               ++ "/oauth/token?grant_type=client_credentials&response_type=token",
             body := none,
             header := [("Accept", ["application/json"])],
             cookies := none }]
      ∧ ∀ (otherUrl : String) (u2 : URL), env.urlParse otherUrl = Except.ok u2 →
          u2.Scheme = u.Scheme → u2.Host = u.Host →
          (x.GetBearerToken env w otherUrl clientID clientSecret).w.sent
            = (x.GetBearerToken env w oauthUrl clientID clientSecret).w.sent := by
  refine ⟨GetBearerToken_sent env x w oauthUrl clientID clientSecret u hu, ?_⟩
  intro otherUrl u2 hu2 hS hH
  rw [GetBearerToken_sent env x w otherUrl clientID clientSecret u2 hu2,
    GetBearerToken_sent env x w oauthUrl clientID clientSecret u hu]
  simp [tokenRequest, hS, hH]

/-- C1, witness: the test `OAuth Url with path`. The URL of the test server
followed by `/oauth/token?grant_type=client_credentials` leads to the same
request as the bare URL. -/
theorem GetBearerToken_requests_token_endpoint_witness :
    (replyEnv 200 bearerBody).urlParse "http://127.0.0.1:8080/oauth/token?grant_type=client_credentials"
        = Except.ok serverBaseWithPath
      ∧ (freshXSUAA.GetBearerToken (replyEnv 200 bearerBody) emptyWorld
            "http://127.0.0.1:8080/oauth/token?grant_type=client_credentials"
            "myClientID" "secret").w.sent
          = [{ options := { Username := "myClientID", Password := "secret", Token := "" },
               method := "GET",
               url := "http://127.0.0.1:8080/oauth/token?grant_type=client_credentials&response_type=token",
               body := none,
               header := [("Accept", ["application/json"])],
               cookies := none }]
      ∧ (freshXSUAA.GetBearerToken (replyEnv 200 bearerBody) emptyWorld
            "http://127.0.0.1:8080" "myClientID" "secret").w.sent
          = (freshXSUAA.GetBearerToken (replyEnv 200 bearerBody) emptyWorld
            "http://127.0.0.1:8080/oauth/token?grant_type=client_credentials"
            "myClientID" "secret").w.sent :=
  ⟨rfl,
   (GetBearerToken_requests_token_endpoint (replyEnv 200 bearerBody) freshXSUAA emptyWorld
      "http://127.0.0.1:8080/oauth/token?grant_type=client_credentials" "myClientID" "secret"
      serverBaseWithPath rfl).1.trans (by decide),
   (GetBearerToken_requests_token_endpoint (replyEnv 200 bearerBody) freshXSUAA emptyWorld
      "http://127.0.0.1:8080/oauth/token?grant_type=client_credentials" "myClientID" "secret"
      serverBaseWithPath rfl).2 "http://127.0.0.1:8080" serverBase rfl rfl rfl⟩

/-- C5. When SendRequest returns a response and no error, the body is read in
full and the status code is not 200, GetBearerToken fails with
`expected response code 200, got '<status>', response body: '<body>'`, with the
status in decimal and the literal body text; the body is not parsed: the
AuthToken of the client is the one it had before the call, whatever the body. -/
theorem GetBearerToken_rejects_other_status (env : Env) (x : XSUAA) (w : World)
    (oauthUrl clientID clientSecret : String) (u : URL) (r : Response) (bodyText : String)
    (hu : env.urlParse oauthUrl = Except.ok u)
    (hr : env.roundTrip (w.sent ++ [tokenRequest u clientID clientSecret]) = (some r, none))
    (hb : r.Body = some (Body.text bodyText))
    (hs : r.StatusCode ≠ 200) :
    (x.GetBearerToken env w oauthUrl clientID clientSecret).err
        = Result.ret (some (Err.errorf
            ("expected response code 200, got '" ++ toString r.StatusCode
              ++ "', response body: '" ++ bodyText ++ "'")))
      ∧ (x.GetBearerToken env w oauthUrl clientID clientSecret).x.AuthToken = x.AuthToken := by
  rw [GetBearerToken_wrong_status env x w oauthUrl clientID clientSecret u r bodyText hu hr hb hs]
  exact ⟨rfl, rfl⟩

/-- C5, witness: status 201 with a body that would be a valid token response. -/
theorem GetBearerToken_rejects_other_status_witness :
    (replyEnv 201 bearerBody).urlParse serverURL = Except.ok serverBase
      ∧ (replyEnv 201 bearerBody).roundTrip
          (emptyWorld.sent ++ [tokenRequest serverBase "myClientID" "secret"])
          = (some { StatusCode := 201, Body := some (Body.text bearerBody) }, none)
      ∧ (201 : Int) ≠ 200
      ∧ (freshXSUAA.GetBearerToken (replyEnv 201 bearerBody) emptyWorld serverURL
            "myClientID" "secret").err
          = Result.ret (some (Err.errorf
              ("expected response code 200, got '" ++ toString (201 : Int)
                ++ "', response body: '" ++ bearerBody ++ "'")))
      ∧ (freshXSUAA.GetBearerToken (replyEnv 201 bearerBody) emptyWorld serverURL
            "myClientID" "secret").x.AuthToken = freshXSUAA.AuthToken :=
  ⟨rfl, rfl, by decide,
   GetBearerToken_rejects_other_status (replyEnv 201 bearerBody) freshXSUAA emptyWorld serverURL
     "myClientID" "secret" serverBase { StatusCode := 201, Body := some (Body.text bearerBody) }
     bearerBody rfl rfl rfl (by decide)⟩

/-- C7. Whenever GetBearerToken returns nil, the stored access token and the
stored token type are non-empty, for every response body and every prior state
of the client. -/
theorem GetBearerToken_nil_token_nonempty (env : Env) (x : XSUAA) (w : World)
    (oauthUrl clientID clientSecret : String)
    (h : (x.GetBearerToken env w oauthUrl clientID clientSecret).err = Result.ret none) :
    (x.GetBearerToken env w oauthUrl clientID clientSecret).x.AuthToken.AccessToken ≠ ""
      ∧ (x.GetBearerToken env w oauthUrl clientID clientSecret).x.AuthToken.TokenType ≠ "" := by
  obtain ⟨u, r, t, _, _, _, _, heq⟩ :=
    GetBearerToken_nil_inv env x w oauthUrl clientID clientSecret h
  rw [heq] at h ⊢
  rw [afterUnmarshal_err] at h
  have hacc : (Json.Unmarshal t (withCredentials x clientID clientSecret).AuthToken).1.AccessToken
      ≠ "" := by
    intro hempty
    rw [if_pos hempty] at h
    simp at h
  refine ⟨?_, ?_⟩
  · rw [afterUnmarshal_AccessToken]; exact hacc
  · rw [afterUnmarshal_TokenType _ _ _ hacc]
    split
    · decide
    · assumption

/-- C7, witness: a body on which json.Unmarshal reports an error (expires_in is
a string) and GetBearerToken returns nil all the same. -/
theorem GetBearerToken_nil_token_nonempty_witness :
    (freshXSUAA.GetBearerToken (replyEnv 200 badExpiryBody) emptyWorld serverURL
        "myClientID" "secret").err = Result.ret none
      ∧ (freshXSUAA.GetBearerToken (replyEnv 200 badExpiryBody) emptyWorld serverURL
            "myClientID" "secret").x.AuthToken.AccessToken ≠ ""
      ∧ (freshXSUAA.GetBearerToken (replyEnv 200 badExpiryBody) emptyWorld serverURL
            "myClientID" "secret").x.AuthToken.TokenType ≠ "" :=
  ⟨by decide,
   GetBearerToken_nil_token_nonempty (replyEnv 200 badExpiryBody) freshXSUAA emptyWorld serverURL
     "myClientID" "secret" (by decide)⟩

/-- C8. When SendRequest returns an error, GetBearerToken fails with that error
wrapped under `HTTP GET request failed` (message `HTTP GET request failed: <message of the transport error>`),
sets the error category to the service category, reads and closes no body, and
leaves AuthToken as it was. -/
theorem GetBearerToken_wraps_transport_error (env : Env) (x : XSUAA) (w : World)
    (oauthUrl clientID clientSecret : String) (u : URL) (resp : Option Response) (e : Err)
    (hu : env.urlParse oauthUrl = Except.ok u)
    (hr : env.roundTrip (w.sent ++ [tokenRequest u clientID clientSecret]) = (resp, some e)) :
    (x.GetBearerToken env w oauthUrl clientID clientSecret).err
        = Result.ret (some (Err.wrap e "HTTP GET request failed"))
      ∧ (Err.wrap e "HTTP GET request failed").Error = "HTTP GET request failed: " ++ e.Error
      ∧ (Err.wrap e "HTTP GET request failed").Cause = e.Cause
      ∧ (x.GetBearerToken env w oauthUrl clientID clientSecret).w.errorCategory
          = ErrorCategory.ErrorService
      ∧ (x.GetBearerToken env w oauthUrl clientID clientSecret).w.bodiesRead = w.bodiesRead
      ∧ (x.GetBearerToken env w oauthUrl clientID clientSecret).w.bodiesClosed = w.bodiesClosed
      ∧ (x.GetBearerToken env w oauthUrl clientID clientSecret).x.AuthToken = x.AuthToken := by
  rw [GetBearerToken_transport_error env x w oauthUrl clientID clientSecret u resp e hu hr]
  exact ⟨rfl, rfl, rfl, rfl, rfl, rfl, rfl⟩

/-- C8, witness: the test `HTTP error`, a 401 answer that SendRequest reports as an error. -/
theorem GetBearerToken_wraps_transport_error_witness :
    unauthorizedEnv.urlParse serverURL = Except.ok serverBase
      ∧ unauthorizedEnv.roundTrip
          (emptyWorld.sent ++ [tokenRequest serverBase "myClientID" "secret"])
          = (some { StatusCode := 401,
                    Body := some (Body.text "\x7b\"error\": \"unauthorized\"\x7d") },
              some unauthorized)
      ∧ (freshXSUAA.GetBearerToken unauthorizedEnv emptyWorld serverURL
            "myClientID" "secret").err
          = Result.ret (some (Err.wrap unauthorized "HTTP GET request failed"))
      ∧ (Err.wrap unauthorized "HTTP GET request failed").Error
          = "HTTP GET request failed: " ++ unauthorized.Error
      ∧ (Err.wrap unauthorized "HTTP GET request failed").Cause = unauthorized.Cause
      ∧ (freshXSUAA.GetBearerToken unauthorizedEnv emptyWorld serverURL
            "myClientID" "secret").w.errorCategory = ErrorCategory.ErrorService
      ∧ (freshXSUAA.GetBearerToken unauthorizedEnv emptyWorld serverURL
            "myClientID" "secret").w.bodiesRead = emptyWorld.bodiesRead
      ∧ (freshXSUAA.GetBearerToken unauthorizedEnv emptyWorld serverURL
            "myClientID" "secret").w.bodiesClosed = emptyWorld.bodiesClosed
      ∧ (freshXSUAA.GetBearerToken unauthorizedEnv emptyWorld serverURL
            "myClientID" "secret").x.AuthToken = freshXSUAA.AuthToken :=
  ⟨rfl, rfl,
   GetBearerToken_wraps_transport_error unauthorizedEnv freshXSUAA emptyWorld serverURL
     "myClientID" "secret" serverBase
     (some { StatusCode := 401, Body := some (Body.text "\x7b\"error\": \"unauthorized\"\x7d") })
     unauthorized rfl rfl⟩

/-! ## Claims on `SetBearerToken` -/

/-- Values under a name after `Header.Add` under that name: the earlier ones and the new one. -/
theorem Header_Values_Add (h : Header) (key value : String) :
    Header.Values (Header.Add h key value) key = Header.Values h key ++ [value] := by
  induction h with
  | nil => simp [Header.Add, Header.Values]
  | cons kv rest ih =>
    obtain ⟨k, vs⟩ := kv
    unfold Header.Add
    by_cases hk : k = key
    · simp [hk, Header.Values]
    · have hk2 : (k == key) = false := by simpa using hk
      simp only [if_neg hk]
      unfold Header.Values at ih ⊢
      simp only [List.find?, hk2]
      exact ih

/-- C9, counterexample. For the address `:`, which url.Parse rejects,
GetBearerToken fails and SetBearerToken returns that error, and the transport
is not called at all: no request is sent, where the claim says one. -/
theorem SetBearerToken_no_request_counterexample :
    (replyEnv 200 bearerBody).urlParse ":" = Except.error missingScheme
      ∧ (freshXSUAA.GetBearerToken (replyEnv 200 bearerBody) emptyWorld ":"
            "myClientID" "secret").err = Result.ret (some missingScheme)
      ∧ (freshXSUAA.SetBearerToken (replyEnv 200 bearerBody) emptyWorld ":"
            "myClientID" "secret").err = Result.ret (some missingScheme)
      ∧ (freshXSUAA.SetBearerToken (replyEnv 200 bearerBody) emptyWorld ":"
            "myClientID" "secret").w.sent = []
      ∧ (freshXSUAA.SetBearerToken (replyEnv 200 bearerBody) emptyWorld ":"
            "myClientID" "secret").w.sent.length ≠ 1 := by
  refine ⟨rfl, by decide, by decide, by decide, by decide⟩

/-- C9, amended. Whenever GetBearerToken fails, SetBearerToken ends in the very
state GetBearerToken ends in and returns the same error value: nothing is
wrapped and nothing is retried. The transport is called once when url.Parse
accepted the URL (the one token request) and not at all when url.Parse
rejected it. The Token option is not set: the options are the earlier ones, or
the credentials with an empty Token. -/
theorem SetBearerToken_propagates_error (env : Env) (x : XSUAA) (w : World)
    (oauthBaseUrl clientID clientSecret : String) (e : Err)
    (h : (x.GetBearerToken env w oauthBaseUrl clientID clientSecret).err = Result.ret (some e)) :
    x.SetBearerToken env w oauthBaseUrl clientID clientSecret
        = x.GetBearerToken env w oauthBaseUrl clientID clientSecret
      ∧ (x.SetBearerToken env w oauthBaseUrl clientID clientSecret).err = Result.ret (some e)
      ∧ (∀ u, env.urlParse oauthBaseUrl = Except.ok u →
          (x.SetBearerToken env w oauthBaseUrl clientID clientSecret).w.sent
            = w.sent ++ [tokenRequest u clientID clientSecret])
      ∧ (∀ e0, env.urlParse oauthBaseUrl = Except.error e0 →
          (x.SetBearerToken env w oauthBaseUrl clientID clientSecret).w.sent = w.sent)
      ∧ ((x.SetBearerToken env w oauthBaseUrl clientID clientSecret).x.client.options
            = x.client.options
          ∨ (x.SetBearerToken env w oauthBaseUrl clientID clientSecret).x.client.options
            = { Username := clientID, Password := clientSecret, Token := "" }) := by
  have hset : x.SetBearerToken env w oauthBaseUrl clientID clientSecret
      = x.GetBearerToken env w oauthBaseUrl clientID clientSecret := by
    unfold XSUAA.SetBearerToken
    simp only [h]
    cases hg : x.GetBearerToken env w oauthBaseUrl clientID clientSecret with
    | mk gx gw gerr =>
      rw [hg] at h
      simp only at h
      subst h
      rfl
  refine ⟨hset, by rw [hset]; exact h, ?_, ?_, ?_⟩
  · intro u hu
    rw [hset]
    exact GetBearerToken_sent env x w oauthBaseUrl clientID clientSecret u hu
  · intro e0 hu
    rw [hset, GetBearerToken_parse_error env x w oauthBaseUrl clientID clientSecret e0 hu]
  · rw [hset]
    cases hu : env.urlParse oauthBaseUrl with
    | error e0 =>
      left
      rw [GetBearerToken_parse_error env x w oauthBaseUrl clientID clientSecret e0 hu]
    | ok u =>
      right
      rcases hr : env.roundTrip (w.sent ++ [tokenRequest u clientID clientSecret]) with ⟨resp, e1⟩
      cases e1 with
      | some e1 =>
        rw [GetBearerToken_transport_error env x w oauthBaseUrl clientID clientSecret u resp e1 hu hr]
        rfl
      | none =>
        cases resp with
        | none =>
          rw [GetBearerToken_no_response env x w oauthBaseUrl clientID clientSecret u hu hr]
          rfl
        | some r =>
          cases hb : r.Body with
          | none =>
            rw [GetBearerToken_nil_body env x w oauthBaseUrl clientID clientSecret u r hu hr hb]
            rfl
          | some b =>
            cases b with
            | broken e2 =>
              rw [GetBearerToken_broken_body env x w oauthBaseUrl clientID clientSecret u r e2 hu hr hb]
              rfl
            | text t =>
              by_cases hs : r.StatusCode = 200
              · rw [GetBearerToken_status_ok env x w oauthBaseUrl clientID clientSecret u r t hu hr hb hs,
                  afterUnmarshal_client]
                rfl
              · rw [GetBearerToken_wrong_status env x w oauthBaseUrl clientID clientSecret u r t hu hr hb hs]
                rfl

/-- C9, witness: the test `Error case`, a 401 answer, with its one request;
and the address `:`, with none. -/
theorem SetBearerToken_propagates_error_witness :
    ((freshXSUAA.GetBearerToken unauthorizedEnv emptyWorld serverURL "myClientID" "secret").err
        = Result.ret (some (Err.wrap unauthorized "HTTP GET request failed"))
      ∧ unauthorizedEnv.urlParse serverURL = Except.ok serverBase
      ∧ freshXSUAA.SetBearerToken unauthorizedEnv emptyWorld serverURL "myClientID" "secret"
          = freshXSUAA.GetBearerToken unauthorizedEnv emptyWorld serverURL "myClientID" "secret"
      ∧ (freshXSUAA.SetBearerToken unauthorizedEnv emptyWorld serverURL "myClientID" "secret").err
          = Result.ret (some (Err.wrap unauthorized "HTTP GET request failed"))
      ∧ (freshXSUAA.SetBearerToken unauthorizedEnv emptyWorld serverURL "myClientID"
            "secret").w.sent = emptyWorld.sent ++ [tokenRequest serverBase "myClientID" "secret"]
      ∧ (freshXSUAA.SetBearerToken unauthorizedEnv emptyWorld serverURL "myClientID"
            "secret").x.client.options.Token = "")
    ∧ ((freshXSUAA.GetBearerToken unauthorizedEnv emptyWorld ":" "myClientID" "secret").err
        = Result.ret (some missingScheme)
      ∧ unauthorizedEnv.urlParse ":" = Except.error missingScheme
      ∧ (freshXSUAA.SetBearerToken unauthorizedEnv emptyWorld ":" "myClientID"
            "secret").w.sent = emptyWorld.sent) :=
  ⟨⟨by decide, rfl,
    (SetBearerToken_propagates_error unauthorizedEnv freshXSUAA emptyWorld serverURL
      "myClientID" "secret" (Err.wrap unauthorized "HTTP GET request failed") (by decide)).1,
    (SetBearerToken_propagates_error unauthorizedEnv freshXSUAA emptyWorld serverURL
      "myClientID" "secret" (Err.wrap unauthorized "HTTP GET request failed") (by decide)).2.1,
    (SetBearerToken_propagates_error unauthorizedEnv freshXSUAA emptyWorld serverURL
      "myClientID" "secret" (Err.wrap unauthorized "HTTP GET request failed")
      (by decide)).2.2.1 serverBase rfl,
    by decide⟩,
   ⟨by decide, rfl,
    (SetBearerToken_propagates_error unauthorizedEnv freshXSUAA emptyWorld ":"
      "myClientID" "secret" missingScheme (by decide)).2.2.2.1 missingScheme rfl⟩⟩

/-- C6. After a successful token acquisition SetBearerToken returns nil and
has set the Token option of the client to the stored token type, one space,
and the stored access token (the token is the one GetBearerToken stored; the
type is not forced to `bearer`); every later request through that client goes
out with this string as an Authorization header, after any Authorization
values of the caller. -/
theorem SetBearerToken_sets_token (env : Env) (x : XSUAA) (w : World)
    (oauthBaseUrl clientID clientSecret : String)
    (h : (x.GetBearerToken env w oauthBaseUrl clientID clientSecret).err = Result.ret none) :
    (x.SetBearerToken env w oauthBaseUrl clientID clientSecret).err = Result.ret none
      ∧ (x.SetBearerToken env w oauthBaseUrl clientID clientSecret).x.AuthToken
          = (x.GetBearerToken env w oauthBaseUrl clientID clientSecret).x.AuthToken
      ∧ (x.SetBearerToken env w oauthBaseUrl clientID clientSecret).x.client.options.Token
          = (x.SetBearerToken env w oauthBaseUrl clientID clientSecret).x.AuthToken.TokenType
              ++ " "
              ++ (x.SetBearerToken env w oauthBaseUrl clientID clientSecret).x.AuthToken.AccessToken
      ∧ ∀ (env2 : Env) (w2 : World) (method url : String) (body : Option String)
          (header : Header) (cookies : Option (List String)),
          ∃ s : Sent,
            ((x.SetBearerToken env w oauthBaseUrl clientID clientSecret).x.client.SendRequest
                env2 w2 method url body header cookies).1.sent = w2.sent ++ [s]
            ∧ s.wireHeader = Header.Add header "Authorization"
                ((x.GetBearerToken env w oauthBaseUrl clientID clientSecret).x.AuthToken.TokenType
                  ++ " "
                  ++ (x.GetBearerToken env w oauthBaseUrl clientID clientSecret).x.AuthToken.AccessToken)
            ∧ Header.Values s.wireHeader "Authorization"
                = Header.Values header "Authorization" ++
                  [(x.GetBearerToken env w oauthBaseUrl clientID clientSecret).x.AuthToken.TokenType
                    ++ " "
                    ++ (x.GetBearerToken env w oauthBaseUrl clientID clientSecret).x.AuthToken.AccessToken] := by
  have hset : x.SetBearerToken env w oauthBaseUrl clientID clientSecret
      = { x := { (x.GetBearerToken env w oauthBaseUrl clientID clientSecret).x with
                  client := { options :=
                    { Username := "", Password := "",
                      Token := (x.GetBearerToken env w oauthBaseUrl clientID clientSecret).x.AuthToken.TokenType
                        ++ " "
                        ++ (x.GetBearerToken env w oauthBaseUrl clientID clientSecret).x.AuthToken.AccessToken } } },
          w := (x.GetBearerToken env w oauthBaseUrl clientID clientSecret).w,
          err := Result.ret none } := by
    unfold XSUAA.SetBearerToken
    simp only [h, Client.SetOptions]
  rw [hset]
  refine ⟨rfl, rfl, rfl, ?_⟩
  intro env2 w2 method url body header cookies
  have htok : (x.GetBearerToken env w oauthBaseUrl clientID clientSecret).x.AuthToken.TokenType
      ++ " " ++ (x.GetBearerToken env w oauthBaseUrl clientID clientSecret).x.AuthToken.AccessToken
      ≠ "" := by
    intro hempty
    have hlen := congrArg String.length hempty
    simp [String.length_append] at hlen
    exact absurd hlen.1.2 (by decide)
  refine ⟨_, rfl, ?_, ?_⟩
  · simp only [Sent.wireHeader, if_neg htok]
  · simp only [Sent.wireHeader, if_neg htok]
    exact Header_Values_Add _ _ _

/-- C6, witness: the test `Different token type`. The token option becomes
`jwt 1234`, and a later GET through the client carries it as its only
Authorization value. -/
theorem SetBearerToken_sets_token_witness :
    (freshXSUAA.GetBearerToken (replyEnv 200 jwtBody) emptyWorld serverURL
        "myClientID" "secret").err = Result.ret none
      ∧ (freshXSUAA.SetBearerToken (replyEnv 200 jwtBody) emptyWorld serverURL
            "myClientID" "secret").err = Result.ret none
      ∧ (freshXSUAA.SetBearerToken (replyEnv 200 jwtBody) emptyWorld serverURL
            "myClientID" "secret").x.client.options.Token = "jwt 1234"
      ∧ (freshXSUAA.SetBearerToken (replyEnv 200 bearerBody) emptyWorld serverURL
            "myClientID" "secret").x.client.options.Token = "bearer 1234"
      ∧ (((freshXSUAA.SetBearerToken (replyEnv 200 jwtBody) emptyWorld serverURL
            "myClientID" "secret").x.client.SendRequest (replyEnv 200 jwtBody)
            emptyWorld "GET" serverURL none [] none).1.sent.map
              (fun s => Header.Values s.wireHeader "Authorization")) = [["jwt 1234"]] :=
  ⟨by decide,
   (SetBearerToken_sets_token (replyEnv 200 jwtBody) freshXSUAA emptyWorld serverURL
      "myClientID" "secret" (by decide)).1,
   by decide, by decide, by decide⟩

/-! ## Claim on `Protecode.deleteResult` -/

/-- The call of `deleteResult` when the transport reports an error. -/
theorem deleteResult_transport_error (env : Env)
    (createURL : Protecode → String → String → String → String)
    (pc : Protecode) (w : World) (productID : Int) (resp : Option Response) (e : Err)
    (hr : env.roundTrip (w.sent ++ [{ options := pc.client.options, method := "DELETE", url := createURL pc ("/api/product/" ++ toString productID ++ "/") "" "", body := none, header := [], cookies := none }]) = (resp, some e)) :
    pc.deleteResult env createURL w productID
      = (afterSend w { options := pc.client.options, method := "DELETE", url := createURL pc ("/api/product/" ++ toString productID ++ "/") "" "", body := none, header := [], cookies := none },
          Result.ret (some (Err.wrap e ("failed to delete result: "
            ++ createURL pc ("/api/product/" ++ toString productID ++ "/") "" "")))) := by
  unfold Protecode.deleteResult Protecode.send Client.SendRequest endpointProduct
  simp [hr, Wrapf, afterSend]

/-- The call of `deleteResult` when the transport returns a response and no error. -/
theorem deleteResult_response (env : Env)
    (createURL : Protecode → String → String → String → String)
    (pc : Protecode) (w : World) (productID : Int) (resp : Response)
    (hr : env.roundTrip (w.sent ++ [{ options := pc.client.options, method := "DELETE", url := createURL pc ("/api/product/" ++ toString productID ++ "/") "" "", body := none, header := [], cookies := none }]) = (some resp, none)) :
    pc.deleteResult env createURL w productID = (afterSend w { options := pc.client.options, method := "DELETE", url := createURL pc ("/api/product/" ++ toString productID ++ "/") "" "", body := none, header := [], cookies := none }, Result.ret none) := by
  unfold Protecode.deleteResult Protecode.send Client.SendRequest endpointProduct
  simp [hr, afterSend]

/-- The call of `deleteResult` when the transport returns neither a response nor an error. -/
theorem deleteResult_nothing (env : Env)
    (createURL : Protecode → String → String → String → String)
    (pc : Protecode) (w : World) (productID : Int)
    (hr : env.roundTrip (w.sent ++ [{ options := pc.client.options, method := "DELETE", url := createURL pc ("/api/product/" ++ toString productID ++ "/") "" "", body := none, header := [], cookies := none }]) = (none, none)) :
    pc.deleteResult env createURL w productID = (afterSend w { options := pc.client.options, method := "DELETE", url := createURL pc ("/api/product/" ++ toString productID ++ "/") "" "", body := none, header := [], cookies := none }, Result.panic) := by
  unfold Protecode.deleteResult Protecode.send Client.SendRequest endpointProduct
  simp [hr, afterSend]

/-- The requests sent by `deleteResult`: the earlier ones and the one DELETE. -/
theorem deleteResult_sent (env : Env)
    (createURL : Protecode → String → String → String → String)
    (pc : Protecode) (w : World) (productID : Int) :
    (pc.deleteResult env createURL w productID).1.sent = w.sent ++ [{ options := pc.client.options, method := "DELETE", url := createURL pc ("/api/product/" ++ toString productID ++ "/") "" "", body := none, header := [], cookies := none }] := by
  rcases hr : env.roundTrip (w.sent ++ [{ options := pc.client.options, method := "DELETE", url := createURL pc ("/api/product/" ++ toString productID ++ "/") "" "", body := none, header := [], cookies := none }]) with ⟨resp, e⟩
  cases e with
  | some e => rw [deleteResult_transport_error env createURL pc w productID resp e hr]; rfl
  | none =>
    cases resp with
    | none => rw [deleteResult_nothing env createURL pc w productID hr]; rfl
    | some r => rw [deleteResult_response env createURL pc w productID r hr]; rfl

/-- C10. For every product id, negative ones included, deleteResult calls the
transport exactly once: method DELETE, the URL that createURL builds from the
path `/api/product/<id in decimal>/` and two empty strings, nil body, empty
header map, no cookies. When that call returns a response and no error,
deleteResult returns nil; when it returns an error, deleteResult returns that
error wrapped, with message `failed to delete result: <url>: <message of the transport error>`. -/
theorem deleteResult_single_call (env : Env)
    (createURL : Protecode → String → String → String → String)
    (pc : Protecode) (w : World) (productID : Int) :
    (pc.deleteResult env createURL w productID).1.sent
        = w.sent ++
          [{ options := pc.client.options,
             method := "DELETE",
             url := createURL pc ("/api/product/" ++ toString productID ++ "/") "" "",
             body := none,
             header := [],
             cookies := none }]
      ∧ (∀ (resp : Response),
          env.roundTrip (pc.deleteResult env createURL w productID).1.sent = (some resp, none) →
          (pc.deleteResult env createURL w productID).2 = Result.ret none)
      ∧ (∀ (resp : Option Response) (e : Err),
          env.roundTrip (pc.deleteResult env createURL w productID).1.sent = (resp, some e) →
          (pc.deleteResult env createURL w productID).2
              = Result.ret (some (Err.wrap e ("failed to delete result: "
                  ++ createURL pc ("/api/product/" ++ toString productID ++ "/") "" "")))
            ∧ (Err.wrap e ("failed to delete result: "
                  ++ createURL pc ("/api/product/" ++ toString productID ++ "/") "" "")).Error
                = "failed to delete result: "
                  ++ createURL pc ("/api/product/" ++ toString productID ++ "/") "" ""
                  ++ ": " ++ e.Error
            ∧ (Err.wrap e ("failed to delete result: "
                  ++ createURL pc ("/api/product/" ++ toString productID ++ "/") "" "")).Cause
                = e.Cause) := by
  have hsent := deleteResult_sent env createURL pc w productID
  refine ⟨hsent, ?_, ?_⟩
  · intro resp hr
    rw [hsent] at hr
    rw [deleteResult_response env createURL pc w productID resp hr]
  · intro resp e hr
    rw [hsent] at hr
    rw [deleteResult_transport_error env createURL pc w productID resp e hr]
    exact ⟨rfl, rfl, rfl⟩

/-- C10, witness: the tests of `deleteResult`. Product 12345 against a server
that answers 200, product -1 against a server whose 400 answer SendRequest
reports as an error. -/
theorem deleteResult_single_call_witness :
    (testProtecode.deleteResult badRequestEnv appendURL emptyWorld (-1)).1.sent
        = [{ options := { Username := "", Password := "", Token := "" },
             method := "DELETE",
             url := "https://example.org/api/product/-1/",
             body := none,
             header := [],
             cookies := none }]
      ∧ (testProtecode.deleteResult badRequestEnv appendURL emptyWorld (-1)).2
          = Result.ret (some (Err.wrap badRequest
              "failed to delete result: https://example.org/api/product/-1/"))
      ∧ (testProtecode.deleteResult (replyEnv 200 "\x7b\"meta\": \x7b\"code\": 200\x7d\x7d")
            appendURL emptyWorld 12345).2 = Result.ret none :=
  ⟨(deleteResult_single_call badRequestEnv appendURL testProtecode emptyWorld (-1)).1.trans
      (by decide),
   ((deleteResult_single_call badRequestEnv appendURL testProtecode emptyWorld (-1)).2.2
      (some { StatusCode := 400,
              Body := some (Body.text "\x7b\"meta\": \x7b\"code\": 200\x7d\x7d") })
      badRequest (by decide)).1.trans (by decide),
   (deleteResult_single_call (replyEnv 200 "\x7b\"meta\": \x7b\"code\": 200\x7d\x7d")
      appendURL testProtecode emptyWorld 12345).2.1
      { StatusCode := 200, Body := some (Body.text "\x7b\"meta\": \x7b\"code\": 200\x7d\x7d") }
      (by decide)⟩

/-! ## Claims on the parsing of the response -/

/-- C2, evaluation at the failing input. A client that has acquired the token
`1234` (test `Straight forward`) calls GetBearerToken again and receives
status 200 with the body of the test `No 'access_token' field in json response`.
The body is a JSON object without an access_token member; json.Unmarshal
stores nothing, the earlier access token stays in the struct, and
GetBearerToken returns nil with the earlier token instead of the error that
names the missing field. On a fresh client the same response gives that error. -/
theorem GetBearerToken_keeps_earlier_access_token :
    (freshXSUAA.GetBearerToken (replyEnv 200 bearerBody) emptyWorld serverURL
        "myClientID" "secret").x = bearerXSUAA
      ∧ Json.parse noTokenBody
          = some (Json.Value.object [("authToken", Json.Value.string "1234")])
      ∧ Json.Absent Json.Field.AccessToken [("authToken", Json.Value.string "1234")]
      ∧ (bearerXSUAA.GetBearerToken (replyEnv 200 noTokenBody) emptyWorld serverURL
            "myClientID" "secret").err = Result.ret none
      ∧ (bearerXSUAA.GetBearerToken (replyEnv 200 noTokenBody) emptyWorld serverURL
            "myClientID" "secret").x.AuthToken
          = { TokenType := "bearer", AccessToken := "1234", ExpiresIn := 9876 }
      ∧ (freshXSUAA.GetBearerToken (replyEnv 200 noTokenBody) emptyWorld serverURL
            "myClientID" "secret").err
          = Result.ret (some (Err.errorf
              ("expected authToken field 'access_token' in json response; response body: '"
                ++ noTokenBody ++ "'"))) := by
  refine ⟨by decide, rfl, ?_, by decide, by decide, by decide⟩
  intro m hm
  simp only [List.mem_singleton] at hm
  subst hm
  decide

/-- C4, evaluation at the failing input. A fresh client receives status 200
with a body whose expires_in is a string: json.Unmarshal reports a type error,
and GetBearerToken returns nil, with the access token of that body stored. A
body that is not JSON at all gives a syntax error in json.Unmarshal, and
GetBearerToken answers with the error for a missing access_token on a fresh
client and with nil on a client that holds an earlier token; the error
`HTTP response body could not be parsed as JSON` is never built. -/
theorem GetBearerToken_drops_parse_error :
    (Json.Unmarshal badExpiryBody freshXSUAA.AuthToken).2
        = some (Json.fieldTypeError "string" Json.Field.ExpiresIn)
      ∧ (freshXSUAA.GetBearerToken (replyEnv 200 badExpiryBody) emptyWorld serverURL
            "myClientID" "secret").err = Result.ret none
      ∧ (freshXSUAA.GetBearerToken (replyEnv 200 badExpiryBody) emptyWorld serverURL
            "myClientID" "secret").x.AuthToken
          = { TokenType := "bearer", AccessToken := "1234", ExpiresIn := 0 }
      ∧ (Json.Unmarshal "no json" freshXSUAA.AuthToken).2 = some Json.syntaxError
      ∧ (freshXSUAA.GetBearerToken (replyEnv 200 "no json") emptyWorld serverURL
            "myClientID" "secret").err
          = Result.ret (some (Err.errorf
              "expected authToken field 'access_token' in json response; response body: 'no json'"))
      ∧ (bearerXSUAA.GetBearerToken (replyEnv 200 "no json") emptyWorld serverURL
            "myClientID" "secret").err = Result.ret none := by
  refine ⟨by decide, by decide, by decide, by decide, by decide, by decide⟩

/-- C3, counterexample. Two status-200 responses with a non-empty access_token
on which GetBearerToken returns nil. First: a fresh client and a response whose
token_type is present with the empty string as value; the stored token type is
`bearer`, not the value of the response. Second: a client that holds an earlier
token of type `jwt` and the response of the test `No token type`, without a
token_type member; the stored token type is still `jwt`, not `bearer`. -/
theorem GetBearerToken_token_type_counterexample :
    (Json.parse emptyTypeBody
        = some (Json.Value.object
            [("access_token", Json.Value.string "1234"), ("token_type", Json.Value.string "")])
      ∧ Json.TokenTypeIs
          [("access_token", Json.Value.string "1234"), ("token_type", Json.Value.string "")]
          (some "")
      ∧ (freshXSUAA.GetBearerToken (replyEnv 200 emptyTypeBody) emptyWorld serverURL
            "myClientID" "secret").err = Result.ret none
      ∧ (freshXSUAA.GetBearerToken (replyEnv 200 emptyTypeBody) emptyWorld serverURL
            "myClientID" "secret").x.AuthToken.TokenType ≠ "")
    ∧ (Json.parse noTypeBody
        = some (Json.Value.object
            [("access_token", Json.Value.string "1234"), ("expires_in", Json.Value.number "9876")])
      ∧ Json.TokenTypeIs
          [("access_token", Json.Value.string "1234"), ("expires_in", Json.Value.number "9876")]
          none
      ∧ (jwtXSUAA.GetBearerToken (replyEnv 200 noTypeBody) emptyWorld serverURL
            "myClientID" "secret").err = Result.ret none
      ∧ (jwtXSUAA.GetBearerToken (replyEnv 200 noTypeBody) emptyWorld serverURL
            "myClientID" "secret").x.AuthToken.TokenType ≠ "bearer") := by
  refine ⟨⟨rfl, ?_, by decide, by decide⟩, ⟨rfl, ?_, by decide, by decide⟩⟩
  · refine ⟨[("access_token", Json.Value.string "1234")], "token_type", [], rfl, by decide, ?_⟩
    intro m hm
    simp at hm
  · intro m hm
    simp only [List.mem_cons, List.mem_singleton, List.not_mem_nil, or_false] at hm
    rcases hm with hm | hm <;> subst hm <;> decide

/-- C3, amended. For every client and every response with status 200 whose body
is a JSON object: after GetBearerToken returns nil, the stored token type is
the token_type string of the response when that string is not empty, and
`bearer` when the response gives the empty string for token_type, or has no
token_type member and the token type of the client was empty before the call. -/
theorem GetBearerToken_token_type (env : Env) (x : XSUAA) (w : World)
    (oauthUrl clientID clientSecret : String) (u : URL) (r : Response) (bodyText : String)
    (ms : List (String × Json.Value)) (tokenType : Option String)
    (hu : env.urlParse oauthUrl = Except.ok u)
    (hr : env.roundTrip (w.sent ++ [tokenRequest u clientID clientSecret]) = (some r, none))
    (hb : r.Body = some (Body.text bodyText))
    (hparse : Json.parse bodyText = some (Json.Value.object ms))
    (htt : Json.TokenTypeIs ms tokenType)
    (hfresh : tokenType = none → x.AuthToken.TokenType = "")
    (hnil : (x.GetBearerToken env w oauthUrl clientID clientSecret).err = Result.ret none) :
    (x.GetBearerToken env w oauthUrl clientID clientSecret).x.AuthToken.TokenType
      = match tokenType with
        | some v => if v = "" then "bearer" else v
        | none => "bearer" := by
  have hs : r.StatusCode = 200 := by
    by_contra hs
    rw [GetBearerToken_wrong_status env x w oauthUrl clientID clientSecret u r bodyText hu hr hb hs]
      at hnil
    simp at hnil
  rw [GetBearerToken_status_ok env x w oauthUrl clientID clientSecret u r bodyText hu hr hb hs]
    at hnil ⊢
  rw [afterUnmarshal_err] at hnil
  have hacc : (Json.Unmarshal bodyText
      (withCredentials x clientID clientSecret).AuthToken).1.AccessToken ≠ "" := by
    intro hempty
    rw [if_pos hempty] at hnil
    simp at hnil
  rw [afterUnmarshal_TokenType _ _ _ hacc, Unmarshal_object _ _ ms hparse]
  cases tokenType with
  | some v =>
    rw [decodeMembers_TokenType_last ms _ none v htt]
  | none =>
    rw [decodeMembers_TokenType_absent ms _ none htt]
    have hx : (withCredentials x clientID clientSecret).AuthToken.TokenType = "" := hfresh rfl
    rw [if_pos hx]

/-- C3, witness. A client that holds an earlier token of type `bearer` receives
the response of the test `Different token type` and stores `jwt`; a fresh
client receives the response of the test `No token type` and stores `bearer`. -/
theorem GetBearerToken_token_type_witness :
    ((replyEnv 200 jwtBody).urlParse serverURL = Except.ok serverBase
      ∧ Json.parse jwtBody
          = some (Json.Value.object
              [("access_token", Json.Value.string "1234"),
               ("expires_in", Json.Value.number "9876"),
               ("token_type", Json.Value.string "jwt")])
      ∧ Json.TokenTypeIs
          [("access_token", Json.Value.string "1234"),
           ("expires_in", Json.Value.number "9876"),
           ("token_type", Json.Value.string "jwt")] (some "jwt")
      ∧ (bearerXSUAA.GetBearerToken (replyEnv 200 jwtBody) emptyWorld serverURL
            "myClientID" "secret").err = Result.ret none
      ∧ (bearerXSUAA.GetBearerToken (replyEnv 200 jwtBody) emptyWorld serverURL
            "myClientID" "secret").x.AuthToken.TokenType = "jwt")
    ∧ (Json.parse noTypeBody
          = some (Json.Value.object
              [("access_token", Json.Value.string "1234"),
               ("expires_in", Json.Value.number "9876")])
      ∧ Json.TokenTypeIs
          [("access_token", Json.Value.string "1234"),
           ("expires_in", Json.Value.number "9876")] none
      ∧ freshXSUAA.AuthToken.TokenType = ""
      ∧ (freshXSUAA.GetBearerToken (replyEnv 200 noTypeBody) emptyWorld serverURL
            "myClientID" "secret").err = Result.ret none
      ∧ (freshXSUAA.GetBearerToken (replyEnv 200 noTypeBody) emptyWorld serverURL
            "myClientID" "secret").x.AuthToken.TokenType = "bearer") := by
  have hjwt : Json.TokenTypeIs
      [("access_token", Json.Value.string "1234"),
       ("expires_in", Json.Value.number "9876"),
       ("token_type", Json.Value.string "jwt")] (some "jwt") := by
    refine ⟨[("access_token", Json.Value.string "1234"),
      ("expires_in", Json.Value.number "9876")], "token_type", [], rfl, by decide, ?_⟩
    intro m hm
    simp at hm
  have hnone : Json.TokenTypeIs
      [("access_token", Json.Value.string "1234"),
       ("expires_in", Json.Value.number "9876")] none := by
    intro m hm
    simp only [List.mem_cons, List.mem_singleton, List.not_mem_nil, or_false] at hm
    rcases hm with hm | hm <;> subst hm <;> decide
  exact ⟨⟨rfl, rfl, hjwt, by decide,
      GetBearerToken_token_type (replyEnv 200 jwtBody) bearerXSUAA emptyWorld serverURL
        "myClientID" "secret" serverBase
        { StatusCode := 200, Body := some (Body.text jwtBody) } jwtBody _ (some "jwt")
        rfl rfl rfl rfl hjwt (fun h => Option.noConfusion h) (by decide)⟩,
    ⟨rfl, hnone, rfl, by decide,
      GetBearerToken_token_type (replyEnv 200 noTypeBody) freshXSUAA emptyWorld serverURL
        "myClientID" "secret" serverBase
        { StatusCode := 200, Body := some (Body.text noTypeBody) } noTypeBody _ none
        rfl rfl rfl rfl hnone (fun _ => rfl) (by decide)⟩⟩

/-! ## Further facts on the parsing of the response -/

/-- Where the code keeps the promise of its doc comment (C2 apart from the
failing input): for a status-200 response whose body is a JSON object,
GetBearerToken fails with the error that names `access_token` when the object
gives the empty string for access_token, and when it has no access_token
member and the client held no access token before the call. -/
theorem GetBearerToken_missing_access_token (env : Env) (x : XSUAA) (w : World)
    (oauthUrl clientID clientSecret : String) (u : URL) (r : Response) (bodyText : String)
    (ms : List (String × Json.Value))
    (hu : env.urlParse oauthUrl = Except.ok u)
    (hr : env.roundTrip (w.sent ++ [tokenRequest u clientID clientSecret]) = (some r, none))
    (hb : r.Body = some (Body.text bodyText))
    (hs : r.StatusCode = 200)
    (hparse : Json.parse bodyText = some (Json.Value.object ms))
    (hmiss : Json.LastString Json.Field.AccessToken ms ""
      ∨ (Json.Absent Json.Field.AccessToken ms ∧ x.AuthToken.AccessToken = "")) :
    (x.GetBearerToken env w oauthUrl clientID clientSecret).err
      = Result.ret (some (Err.errorf
          ("expected authToken field 'access_token' in json response; response body: '"
            ++ bodyText ++ "'"))) := by
  rw [GetBearerToken_status_ok env x w oauthUrl clientID clientSecret u r bodyText hu hr hb hs,
    afterUnmarshal_err, Unmarshal_object _ _ ms hparse]
  have hempty : (Json.decodeMembers ms (withCredentials x clientID clientSecret).AuthToken
      none).1.AccessToken = "" := by
    rcases hmiss with hlast | ⟨habs, hx⟩
    · exact decodeMembers_AccessToken_last ms _ none "" hlast
    · rw [decodeMembers_AccessToken_absent ms _ none habs]
      exact hx
  rw [if_pos hempty]

/-- The text of the parse error differs from the texts under which
`GetBearerToken` wraps an error. -/
theorem parse_error_text_ne (bodyText : String) :
    "HTTP GET request failed" ≠ "HTTP response body could not be parsed as JSON: " ++ bodyText
      ∧ "HTTP response body could not be read"
          ≠ "HTTP response body could not be parsed as JSON: " ++ bodyText := by
  constructor
  · intro h
    have h2 := congrArg (fun s : String => s.data.take 6) h
    simp only [String.data_append] at h2
    rw [List.take_append_of_le_length (by decide)] at h2
    revert h2
    decide
  · intro h
    have h2 := congrArg (fun s : String => s.data.take 33) h
    simp only [String.data_append] at h2
    rw [List.take_append_of_le_length (by decide)] at h2
    revert h2
    decide

/-- The branch that builds the parse error is dead (C4 apart from the failing
input): whatever the URL, the reply and the earlier state, `GetBearerToken`
never returns an error wrapped as `HTTP response body could not be parsed as JSON: <body>`. -/
theorem GetBearerToken_never_parse_error (env : Env) (x : XSUAA) (w : World)
    (oauthUrl clientID clientSecret : String) (cause : Err) (bodyText : String)
    (hnot : ∀ e, env.urlParse oauthUrl = Except.error e →
      e ≠ Err.wrap cause ("HTTP response body could not be parsed as JSON: " ++ bodyText)) :
    (x.GetBearerToken env w oauthUrl clientID clientSecret).err
      ≠ Result.ret (some (Err.wrap cause
          ("HTTP response body could not be parsed as JSON: " ++ bodyText))) := by
  intro h
  cases hu : env.urlParse oauthUrl with
  | error e =>
    rw [GetBearerToken_parse_error env x w oauthUrl clientID clientSecret e hu] at h
    simp only [Result.ret.injEq, Option.some.injEq] at h
    exact hnot e hu h
  | ok u =>
    rcases hr : env.roundTrip (w.sent ++ [tokenRequest u clientID clientSecret]) with ⟨resp, e⟩
    cases e with
    | some e =>
      rw [GetBearerToken_transport_error env x w oauthUrl clientID clientSecret u resp e hu hr] at h
      simp only [Result.ret.injEq, Option.some.injEq, Err.wrap.injEq] at h
      exact (parse_error_text_ne bodyText).1 h.2
    | none =>
      cases resp with
      | none =>
        rw [GetBearerToken_no_response env x w oauthUrl clientID clientSecret u hu hr] at h
        simp at h
      | some r =>
        cases hb : r.Body with
        | none =>
          rw [GetBearerToken_nil_body env x w oauthUrl clientID clientSecret u r hu hr hb] at h
          simp at h
        | some b =>
          cases b with
          | broken e =>
            rw [GetBearerToken_broken_body env x w oauthUrl clientID clientSecret u r e hu hr hb] at h
            simp only [Result.ret.injEq, Option.some.injEq, Err.wrap.injEq] at h
            exact (parse_error_text_ne bodyText).2 h.2
          | text t =>
            by_cases hs : r.StatusCode = 200
            · rw [GetBearerToken_status_ok env x w oauthUrl clientID clientSecret u r t hu hr hb hs,
                afterUnmarshal_err] at h
              split_ifs at h <;> simp at h
            · rw [GetBearerToken_wrong_status env x w oauthUrl clientID clientSecret u r t hu hr hb hs] at h
              simp at h
